/-
  Verification of the GridScaper conductor/terrain geometry engine.

  This file shallowly embeds the geometry core of the GridScaper
  application (catenary solving, conductor curve sampling, ground
  clearance checking, elevation-profile parsing and terrain building,
  GIS CSV parsing) and proves or refutes the specified properties.

  Modelling conventions:
  * JavaScript IEEE-754 double arithmetic is idealised: parsing and
    piecewise-linear interpolation code is embedded over `ℚ` (it uses
    only field operations), while the catenary code, which calls the
    transcendental `Math.cosh`/`Math.sinh`/`Math.sqrt`, is embedded
    over `ℝ` with `Real.cosh`/`Real.sinh`/`Real.sqrt`.
  * `parseFloat` is modelled as `Option ℚ`, `none` standing for `NaN`
    (non-finite parses are collapsed into `none`).
  * Theorems that rely on a division carry hypotheses ruling out the
    zero-denominator case, where JavaScript would produce `NaN`.
-/

import Mathlib

namespace GridScaper

/-! ## Clearance evaluation (src/unnamed/part_001, `checkClearances`)

The per-group decision logic of `checkClearances`: every sampled point
of every conductor in the group is scanned; `minClearance` starts at
`Infinity` and `violationPoint` at `null` (together modelled as an
`Option (ℚ × Point3)` accumulator, `none` for the initial state);
the group is a violation iff `violationPoint && minClearance < threshold`. -/

/-- A sampled conductor curve point `{x, y, z}`. -/
structure Point3 where
  x : ℚ
  y : ℚ
  z : ℚ
  deriving DecidableEq, Repr

/-- `clearanceToGround = y - hAt(x, z)` for one sampled point. -/
def clearanceToGround (hAt : ℚ → ℚ → ℚ) (p : Point3) : ℚ :=
  p.y - hAt p.x p.z

/-- The scan step of `checkClearances`:
`if (clearanceToGround < minClearance) { minClearance = ...; violationPoint = ...; }`,
with accumulator `none` playing the role of
`minClearance = Infinity, violationPoint = null`. -/
def clearanceScanStep (hAt : ℚ → ℚ → ℚ) (acc : Option (ℚ × Point3))
    (p : Point3) : Option (ℚ × Point3) :=
  let c := clearanceToGround hAt p
  match acc with
  | none => some (c, p)
  | some (m, vp) => if c < m then some (c, p) else some (m, vp)

/-- Scan of all points of one conductor (`for (let i = 0; i < positions.count; i++)`). -/
def clearanceScanSpan (hAt : ℚ → ℚ → ℚ) (acc : Option (ℚ × Point3))
    (pts : List Point3) : Option (ℚ × Point3) :=
  pts.foldl (clearanceScanStep hAt) acc

/-- Scan of the whole span group (`spanGroup.forEach(span => ...)`):
the group is a list of conductors, each a list of sampled points. -/
def clearanceScanGroup (hAt : ℚ → ℚ → ℚ) (group : List (List Point3)) :
    Option (ℚ × Point3) :=
  group.foldl (clearanceScanSpan hAt) none

/-- The violation decision of `checkClearances` for one span group:
`violationPoint && minClearance < threshold`. -/
def groupViolation (hAt : ℚ → ℚ → ℚ) (group : List (List Point3))
    (threshold : ℚ) : Bool :=
  match clearanceScanGroup hAt group with
  | none => false
  | some (m, _) => decide (m < threshold)

/-- The mathematical minimum clearance of a group: the `List.foldl min`
of the clearances of all sampled points (defined when the group has at
least one point). -/
def minClearanceVal (hAt : ℚ → ℚ → ℚ) (group : List (List Point3)) : Option ℚ :=
  match (group.flatten).map (clearanceToGround hAt) with
  | [] => none
  | c :: cs => some (cs.foldl min c)

/-! Helper lemmas relating the scan to the fold of `min`. -/

theorem clearanceScanStep_some (hAt : ℚ → ℚ → ℚ) (m : ℚ) (vp p : Point3) :
    ∃ vp', clearanceScanStep hAt (some (m, vp)) p
      = some (min m (clearanceToGround hAt p), vp') := by
  unfold clearanceScanStep
  by_cases h : clearanceToGround hAt p < m
  · exact ⟨p, by simp [h, min_eq_right (le_of_lt h)]⟩
  · exact ⟨vp, by simp [h, min_eq_left (le_of_not_lt h)]⟩

theorem clearanceScanSpan_some (hAt : ℚ → ℚ → ℚ) (pts : List Point3) :
    ∀ (m : ℚ) (vp : Point3), ∃ vp',
      clearanceScanSpan hAt (some (m, vp)) pts
        = some ((pts.map (clearanceToGround hAt)).foldl min m, vp') := by
  induction pts with
  | nil => intro m vp; exact ⟨vp, rfl⟩
  | cons p rest ih =>
    intro m vp
    obtain ⟨vp', hstep⟩ := clearanceScanStep_some hAt m vp p
    obtain ⟨vp'', hrest⟩ := ih (min m (clearanceToGround hAt p)) vp'
    refine ⟨vp'', ?_⟩
    simp only [clearanceScanSpan, List.foldl_cons] at hrest ⊢
    rw [hstep]
    exact hrest

theorem clearanceScanSpan_none_cons (hAt : ℚ → ℚ → ℚ) (p : Point3)
    (rest : List Point3) : ∃ vp,
    clearanceScanSpan hAt none (p :: rest)
      = some ((rest.map (clearanceToGround hAt)).foldl min
          (clearanceToGround hAt p), vp) := by
  have h1 : clearanceScanSpan hAt none (p :: rest)
      = clearanceScanSpan hAt (some (clearanceToGround hAt p, p)) rest := by
    simp [clearanceScanSpan, clearanceScanStep]
  obtain ⟨vp, hvp⟩ := clearanceScanSpan_some hAt rest (clearanceToGround hAt p) p
  exact ⟨vp, h1.trans hvp⟩

theorem clearanceScanGroup_eq_flatten (hAt : ℚ → ℚ → ℚ)
    (group : List (List Point3)) :
    clearanceScanGroup hAt group = clearanceScanSpan hAt none group.flatten := by
  show group.foldl (clearanceScanSpan hAt) none
      = (group.flatten).foldl (clearanceScanStep hAt) none
  generalize none = acc
  induction group generalizing acc with
  | nil => rfl
  | cons pts rest ih =>
    simp only [List.foldl_cons, List.flatten_cons, List.foldl_append]
    exact ih _

theorem groupViolation_iff_min (hAt : ℚ → ℚ → ℚ) (group : List (List Point3))
    (threshold : ℚ) :
    groupViolation hAt group threshold = true
      ↔ ∃ m, minClearanceVal hAt group = some m ∧ m < threshold := by
  unfold groupViolation minClearanceVal
  rw [clearanceScanGroup_eq_flatten]
  cases hfl : group.flatten with
  | nil => simp [clearanceScanSpan]
  | cons p rest =>
    obtain ⟨vp, hvp⟩ := clearanceScanSpan_none_cons hAt p rest
    rw [hvp]
    simp

/-- C1 (amended): for every span group with at least one sampled point,
`checkClearances` flags the group as a violation iff the minimum over
all sampled curve points of `y - hAt(x, z)` is strictly less than the
threshold; consequently raising the threshold can only turn
non-violations into violations (equivalently, a violation at a lower
threshold is still a violation at any higher threshold). -/
theorem C1_groupViolation_iff_min_and_monotone (hAt : ℚ → ℚ → ℚ)
    (group : List (List Point3)) (T T' : ℚ) (_hne : group.flatten ≠ []) :
    (groupViolation hAt group T = true
       ↔ ∃ m, minClearanceVal hAt group = some m ∧ m < T)
    ∧ (T' ≤ T → groupViolation hAt group T' = true →
        groupViolation hAt group T = true) := by
  refine ⟨groupViolation_iff_min hAt group T, fun hle hv => ?_⟩
  obtain ⟨m, hm, hmlt⟩ := (groupViolation_iff_min hAt group T').mp hv
  exact (groupViolation_iff_min hAt group T).mpr ⟨m, hm, lt_of_lt_of_le hmlt hle⟩

/-- Witness for C1: a one-point group over flat ground at height 0, the
conductor point at height 5, threshold 10. -/
theorem C1_witness :
    (([[(⟨0, 5, 0⟩ : Point3)]] : List (List Point3)).flatten ≠ []
      ∧ ((groupViolation (fun _ _ => 0) [[⟨0, 5, 0⟩]] 10 = true
           ↔ ∃ m, minClearanceVal (fun _ _ => 0) [[⟨0, 5, 0⟩]] = some m ∧ m < 10)
         ∧ ((3 : ℚ) ≤ 10 → groupViolation (fun _ _ => 0) [[⟨0, 5, 0⟩]] 3 = true →
             groupViolation (fun _ _ => 0) [[⟨0, 5, 0⟩]] 10 = true))) :=
  ⟨by decide,
   C1_groupViolation_iff_min_and_monotone (fun _ _ => 0) [[⟨0, 5, 0⟩]] 10 3
     (by decide)⟩

/-- Counterexample to C1 as stated: lowering the threshold from 10 to 3
turns a violation (minimum clearance 5 < 10) into a non-violation
(5 ≥ 3) — the reverse of the direction claimed. -/
theorem C1_counterexample :
    (3 : ℚ) < 10
    ∧ groupViolation (fun _ _ => 0) [[⟨0, 5, 0⟩]] 10 = true
    ∧ groupViolation (fun _ _ => 0) [[⟨0, 5, 0⟩]] 3 = false := by
  refine ⟨by norm_num, ?_, ?_⟩ <;>
    simp [groupViolation, clearanceScanGroup, clearanceScanSpan,
      clearanceScanStep, clearanceToGround] <;> norm_num

/-! ## Catenary solver and conductor curve (src/utils/catenary.js)

Embedded over `ℝ` because the source calls `Math.cosh`, `Math.sinh`,
`Math.hypot` and `Math.sqrt`. -/

/-- `const MIN_SAG = 0.1` — minimum sag in units. -/
noncomputable def MIN_SAG : ℝ := 0.1

/-- `const BASE_SAG_FACTOR = 0.05` — base sag as percentage of span. -/
noncomputable def BASE_SAG_FACTOR : ℝ := 0.05

/-- `Math.hypot(a, b)`. -/
noncomputable def jsHypot (a b : ℝ) : ℝ := Real.sqrt (a * a + b * b)

/-- The loop body of `solveCatenaryParameter`, iterated at most `fuel`
times: Newton-Raphson on `f(a) = a * (cosh(L/(2a)) - 1) - targetSag`
with early exit when `|aNew - a| < 0.001`. -/
noncomputable def solveCatenaryIter (span targetSag : ℝ) : ℕ → ℝ → ℝ
  | 0, a => a
  | fuel + 1, a =>
    let halfSpan := span / 2
    let x := halfSpan / a
    let coshX := Real.cosh x
    let f := a * (coshX - 1) - targetSag
    let sinhX := Real.sinh x
    let df := coshX - 1 - x * sinhX
    let aNew := a - f / df
    if |aNew - a| < 0.001 then aNew else solveCatenaryIter span targetSag fuel aNew

/-- `solveCatenaryParameter(span, targetSag, maxIterations)`: initial
guess `a = span² / (8 · targetSag)` (parabolic approximation), then the
Newton-Raphson loop.  The source's default `maxIterations` is 20 and is
passed explicitly by `getConductorCurve`'s embedding. -/
noncomputable def solveCatenaryParameter (span targetSag : ℝ)
    (maxIterations : ℕ) : ℝ :=
  solveCatenaryIter span targetSag maxIterations ((span * span) / (8 * targetSag))

/-- Pole data as consumed by `getConductorCurve`:
`{x, z, base, h}`. -/
structure Pole where
  x : ℝ
  z : ℝ
  base : ℝ
  h : ℝ

/-- The options object of `getConductorCurve` with all fields explicit
(the source defaults are `tension = 1`, `samples = 32`,
`lateralOffset = 0`, `terrainOffsetZ = 0`). -/
structure CurveOptions where
  poleA : Pole
  poleB : Pole
  tension : ℝ
  samples : ℕ
  lateralOffset : ℝ
  terrainOffsetZ : ℝ

/-- A 3-D curve point `{x, y, z}`. -/
structure RPoint where
  x : ℝ
  y : ℝ
  z : ℝ

/-- The horizontal span `d = Math.hypot(poleB.x - poleA.x, poleB.z - poleA.z)`
of `getConductorCurve` — this exact value (with no epsilon clamping) is
what is passed to `solveCatenaryParameter`. -/
noncomputable def conductorSpanD (poleA poleB : Pole) : ℝ :=
  jsHypot (poleB.x - poleA.x) (poleB.z - poleA.z)

/-- The unit vector along the span,
`normalizedDirX = dirX / dirLength` with
`dirLength = Math.sqrt(dirX² + dirZ²)`. -/
noncomputable def normalizedDirX (poleA poleB : Pole) : ℝ :=
  (poleB.x - poleA.x) /
    Real.sqrt ((poleB.x - poleA.x) * (poleB.x - poleA.x)
      + (poleB.z - poleA.z) * (poleB.z - poleA.z))

/-- `normalizedDirZ = dirZ / dirLength`. -/
noncomputable def normalizedDirZ (poleA poleB : Pole) : ℝ :=
  (poleB.z - poleA.z) /
    Real.sqrt ((poleB.x - poleA.x) * (poleB.x - poleA.x)
      + (poleB.z - poleA.z) * (poleB.z - poleA.z))

/-- `perpX = -normalizedDirZ` — perpendicular vector (rotated 90°). -/
noncomputable def perpX (poleA poleB : Pole) : ℝ := -normalizedDirZ poleA poleB

/-- `perpZ = normalizedDirX`. -/
noncomputable def perpZ (poleA poleB : Pole) : ℝ := normalizedDirX poleA poleB

/-- `baseSag = Math.max(MIN_SAG, d * BASE_SAG_FACTOR) / tension`. -/
noncomputable def conductorBaseSag (o : CurveOptions) : ℝ :=
  max MIN_SAG (conductorSpanD o.poleA o.poleB * BASE_SAG_FACTOR) / o.tension

/-- `a = solveCatenaryParameter(d, baseSag)` inside `getConductorCurve`. -/
noncomputable def conductorA (o : CurveOptions) : ℝ :=
  solveCatenaryParameter (conductorSpanD o.poleA o.poleB) (conductorBaseSag o) 20

/-- The body of the sampling loop of `getConductorCurve` for sample
index `i` (`t = i / samples`).  The quantities the source hoists out of
the loop (`crossarmHeightA/B`, `d`, `baseSag`, `a`, the normalized
direction, the laterally-offset start/end points) are recomputed here
unchanged; being pure, this is observationally identical to the
source's hoisting. -/
noncomputable def conductorPoint (o : CurveOptions) (i : ℕ) : RPoint :=
  let crossarmHeightA := o.poleA.base + o.poleA.h
  let crossarmHeightB := o.poleB.base + o.poleB.h
  let d := conductorSpanD o.poleA o.poleB
  let heightDiff := crossarmHeightB - crossarmHeightA
  let a := conductorA o
  let startX := o.poleA.x + perpX o.poleA o.poleB * o.lateralOffset
  let startZ := o.poleA.z + perpZ o.poleA o.poleB * o.lateralOffset
  let endX := o.poleB.x + perpX o.poleA o.poleB * o.lateralOffset
  let endZ := o.poleB.z + perpZ o.poleA o.poleB * o.lateralOffset
  let t := (i : ℝ) / (o.samples : ℝ)
  let x := startX + (endX - startX) * t
  let z := startZ + (endZ - startZ) * t + o.terrainOffsetZ
  let localX := (t - 0.5) * d
  let maxCosh := Real.cosh ((d / 2) / a)
  let catenaryY := a * (maxCosh - Real.cosh (localX / a))
  let straightLineHeight := crossarmHeightA + heightDiff * t
  let y := straightLineHeight - catenaryY
  ⟨x, y, z⟩

/-- `getConductorCurve(options)` from src/utils/catenary.js, lines
105-186: the `samples + 1` sampled points of the conductor curve
(`for (let i = 0; i <= samples; i++)`).  The source also computes
`spanLength` and `tiltAngle` (lines 135-136) but never uses them, so
they are omitted here. -/
noncomputable def getConductorCurve (o : CurveOptions) : List RPoint :=
  (List.range (o.samples + 1)).map (conductorPoint o)

theorem getConductorCurve_getElem? (o : CurveOptions) (i : ℕ)
    (hi : i ≤ o.samples) :
    (getConductorCurve o)[i]? = some (conductorPoint o i) := by
  unfold getConductorCurve
  rw [List.getElem?_map, List.getElem?_range (Nat.lt_succ_of_le hi)]
  rfl

/-! Closed forms of the three coordinates of a sampled point. -/

theorem conductorPoint_x (o : CurveOptions) (i : ℕ) :
    (conductorPoint o i).x
      = (o.poleA.x + perpX o.poleA o.poleB * o.lateralOffset)
        + ((o.poleB.x + perpX o.poleA o.poleB * o.lateralOffset)
            - (o.poleA.x + perpX o.poleA o.poleB * o.lateralOffset))
          * ((i : ℝ) / (o.samples : ℝ)) := rfl

theorem conductorPoint_z (o : CurveOptions) (i : ℕ) :
    (conductorPoint o i).z
      = (o.poleA.z + perpZ o.poleA o.poleB * o.lateralOffset)
        + ((o.poleB.z + perpZ o.poleA o.poleB * o.lateralOffset)
            - (o.poleA.z + perpZ o.poleA o.poleB * o.lateralOffset))
          * ((i : ℝ) / (o.samples : ℝ))
        + o.terrainOffsetZ := rfl

theorem conductorPoint_y (o : CurveOptions) (i : ℕ) :
    (conductorPoint o i).y
      = (o.poleA.base + o.poleA.h)
        + ((o.poleB.base + o.poleB.h) - (o.poleA.base + o.poleA.h))
          * ((i : ℝ) / (o.samples : ℝ))
        - conductorA o
          * (Real.cosh ((conductorSpanD o.poleA o.poleB / 2) / conductorA o)
             - Real.cosh ((((i : ℝ) / (o.samples : ℝ) - 0.5)
                 * conductorSpanD o.poleA o.poleB) / conductorA o)) := rfl

/-- At a sample fraction `t`, the catenary dip argument is even in
`t - 0.5`: the dip at `t` and at `1 - t` agree. -/
theorem cosh_dip_arg_symm (n i : ℕ) (hn : 0 < n) (hi : i ≤ n) (d a : ℝ) :
    Real.cosh (((((n - i : ℕ) : ℝ) / (n : ℝ) - 0.5) * d) / a)
      = Real.cosh ((((i : ℝ) / (n : ℝ) - 0.5) * d) / a) := by
  have hn' : ((n : ℝ)) ≠ 0 := Nat.cast_ne_zero.mpr hn.ne'
  have hcast : (((n - i : ℕ)) : ℝ) = (n : ℝ) - (i : ℝ) := Nat.cast_sub hi
  have harg : (((n : ℝ) - i) / n - 0.5) * d = -(((i : ℝ) / n - 0.5) * d) := by
    field_simp
    ring
  rw [hcast, harg, neg_div, Real.cosh_neg]

/-- At `t = 0` the dip argument is `-(d/2)/a`, so the dip vanishes. -/
theorem cosh_dip_arg_zero (n : ℕ) (d a : ℝ) :
    Real.cosh (((((0 : ℕ) : ℝ) / (n : ℝ) - 0.5) * d) / a)
      = Real.cosh ((d / 2) / a) := by
  have harg : ((((0 : ℕ) : ℝ) / (n : ℝ) - 0.5) * d) / a = -((d / 2) / a) := by
    push_cast
    rw [zero_div]
    rw [show ((0 : ℝ) - 0.5) * d = -(d / 2) by ring, neg_div]
  rw [harg, Real.cosh_neg]

/-- At `t = 1` (`i = n`) the dip argument is `(d/2)/a`. -/
theorem cosh_dip_arg_one (n : ℕ) (hn : 0 < n) (d a : ℝ) :
    Real.cosh (((((n : ℕ) : ℝ) / (n : ℝ) - 0.5) * d) / a)
      = Real.cosh ((d / 2) / a) := by
  have hn' : ((n : ℝ)) ≠ 0 := Nat.cast_ne_zero.mpr hn.ne'
  rw [div_self hn', show ((1 : ℝ) - 0.5) * d = d / 2 by ring]

/-- C2 evidence: `getConductorCurve` applies no epsilon clamp to the
horizontal span — for the failing input of two coincident poles at
`(x, z) = (3, 4)` the span `d` it passes to `solveCatenaryParameter`
is exactly `0`, not a small positive epsilon.  (In JavaScript this
makes the solver's first Newton step compute `0/0 = NaN` and the
direction normalization compute `0/0 = NaN`, so the returned points
carry `NaN` coordinates.) -/
theorem C2_span_not_clamped :
    conductorSpanD ⟨3, 4, 0, 10⟩ ⟨3, 4, 0, 10⟩ = 0 := by
  unfold conductorSpanD jsHypot
  norm_num [Real.sqrt_zero]

/-- C5 (amended): for distinct poles and `samples ≥ 1`, the first and
last curve points land exactly at the two attachment points *shifted by
the lateral offset along the perpendicular and by the terrain offset in
z*: `y` is exactly `base + h` of the respective pole, and `x`/`z` equal
the pole position plus `perp * lateralOffset` (plus `terrainOffsetZ`
for `z`).  In particular, with zero lateral offset and zero terrain
offset the endpoints are exactly the pole attachment points. -/
theorem C5_endpoints (o : CurveOptions) (hn : 0 < o.samples)
    (_hd : o.poleA.x ≠ o.poleB.x ∨ o.poleA.z ≠ o.poleB.z) :
    ((getConductorCurve o)[0]?
        = some ⟨o.poleA.x + perpX o.poleA o.poleB * o.lateralOffset,
                o.poleA.base + o.poleA.h,
                o.poleA.z + perpZ o.poleA o.poleB * o.lateralOffset
                  + o.terrainOffsetZ⟩
      ∧ (getConductorCurve o)[o.samples]?
        = some ⟨o.poleB.x + perpX o.poleA o.poleB * o.lateralOffset,
                o.poleB.base + o.poleB.h,
                o.poleB.z + perpZ o.poleA o.poleB * o.lateralOffset
                  + o.terrainOffsetZ⟩)
    ∧ (o.lateralOffset = 0 → o.terrainOffsetZ = 0 →
        (getConductorCurve o)[0]?
            = some ⟨o.poleA.x, o.poleA.base + o.poleA.h, o.poleA.z⟩
        ∧ (getConductorCurve o)[o.samples]?
            = some ⟨o.poleB.x, o.poleB.base + o.poleB.h, o.poleB.z⟩) := by
  have heta : ∀ (j : ℕ), conductorPoint o j
      = ⟨(conductorPoint o j).x, (conductorPoint o j).y,
          (conductorPoint o j).z⟩ := fun _ => rfl
  have hfirst : (getConductorCurve o)[0]?
      = some ⟨o.poleA.x + perpX o.poleA o.poleB * o.lateralOffset,
              o.poleA.base + o.poleA.h,
              o.poleA.z + perpZ o.poleA o.poleB * o.lateralOffset
                + o.terrainOffsetZ⟩ := by
    rw [getConductorCurve_getElem? o 0 (Nat.zero_le _)]
    congr 1
    rw [heta 0, conductorPoint_x, conductorPoint_y, conductorPoint_z,
      cosh_dip_arg_zero]
    simp only [RPoint.mk.injEq]
    refine ⟨?_, ?_, ?_⟩ <;> push_cast <;> ring
  have hlast : (getConductorCurve o)[o.samples]?
      = some ⟨o.poleB.x + perpX o.poleA o.poleB * o.lateralOffset,
              o.poleB.base + o.poleB.h,
              o.poleB.z + perpZ o.poleA o.poleB * o.lateralOffset
                + o.terrainOffsetZ⟩ := by
    have hn' : ((o.samples : ℝ)) ≠ 0 := Nat.cast_ne_zero.mpr hn.ne'
    rw [getConductorCurve_getElem? o o.samples le_rfl]
    congr 1
    rw [heta o.samples, conductorPoint_x, conductorPoint_y, conductorPoint_z,
      cosh_dip_arg_one o.samples hn, div_self hn']
    simp only [RPoint.mk.injEq]
    refine ⟨?_, ?_, ?_⟩ <;> ring
  refine ⟨⟨hfirst, hlast⟩, fun hoff htoff => ?_⟩
  rw [hoff, htoff] at hfirst hlast
  refine ⟨?_, ?_⟩
  · rw [hfirst]; simp
  · rw [hlast]; simp

/-- Witness for C5 at the spec's example span: poles at `(0,0)` and
`(30,0)` with attachment heights 10 and 12, tension 1, 32 samples, no
offsets. -/
theorem C5_witness :
    (0 < (⟨⟨0, 0, 0, 10⟩, ⟨30, 0, 0, 12⟩, 1, 32, 0, 0⟩ :
        CurveOptions).samples
      ∧ ((⟨0, 0, 0, 10⟩ : Pole).x ≠ (⟨30, 0, 0, 12⟩ : Pole).x
          ∨ (⟨0, 0, 0, 10⟩ : Pole).z ≠ (⟨30, 0, 0, 12⟩ : Pole).z))
    ∧ (((getConductorCurve ⟨⟨0, 0, 0, 10⟩, ⟨30, 0, 0, 12⟩, 1, 32, 0, 0⟩)[0]?
          = some ⟨(0 : ℝ) + perpX ⟨0, 0, 0, 10⟩ ⟨30, 0, 0, 12⟩ * 0,
                  (0 : ℝ) + 10,
                  (0 : ℝ) + perpZ ⟨0, 0, 0, 10⟩ ⟨30, 0, 0, 12⟩ * 0 + 0⟩
        ∧ (getConductorCurve ⟨⟨0, 0, 0, 10⟩, ⟨30, 0, 0, 12⟩, 1, 32, 0, 0⟩)[32]?
          = some ⟨(30 : ℝ) + perpX ⟨0, 0, 0, 10⟩ ⟨30, 0, 0, 12⟩ * 0,
                  (0 : ℝ) + 12,
                  (0 : ℝ) + perpZ ⟨0, 0, 0, 10⟩ ⟨30, 0, 0, 12⟩ * 0 + 0⟩)
      ∧ ((0 : ℝ) = 0 → (0 : ℝ) = 0 →
          (getConductorCurve ⟨⟨0, 0, 0, 10⟩, ⟨30, 0, 0, 12⟩, 1, 32, 0, 0⟩)[0]?
            = some ⟨(0 : ℝ), (0 : ℝ) + 10, (0 : ℝ)⟩
          ∧ (getConductorCurve
              ⟨⟨0, 0, 0, 10⟩, ⟨30, 0, 0, 12⟩, 1, 32, 0, 0⟩)[32]?
            = some ⟨(30 : ℝ), (0 : ℝ) + 12, (0 : ℝ)⟩)) :=
  ⟨⟨by norm_num, Or.inl (by norm_num)⟩,
   C5_endpoints ⟨⟨0, 0, 0, 10⟩, ⟨30, 0, 0, 12⟩, 1, 32, 0, 0⟩
     (by norm_num) (Or.inl (by norm_num))⟩

/-- Counterexample to C5 as stated: with lateral offset 1 on the span
from `(0,0)` to `(0,10)`, the first curve point has `x = -1`, not the
pole position `x = 0` — a nonzero lateral offset shifts the endpoints
off the pole positions. -/
theorem C5_counterexample :
    ((getConductorCurve ⟨⟨0, 0, 0, 10⟩, ⟨0, 10, 0, 10⟩, 1, 2, 1, 0⟩)[0]?).map
        RPoint.x
      = some (-1)
    ∧ ((-1 : ℝ) ≠ (⟨0, 0, 0, 10⟩ : Pole).x) := by
  constructor
  · rw [getConductorCurve_getElem? _ 0 (Nat.zero_le _)]
    rw [Option.map_some']
    congr 1
    rw [conductorPoint_x]
    have hperp : perpX (⟨0, 0, 0, 10⟩ : Pole) (⟨0, 10, 0, 10⟩ : Pole)
        = -1 := by
      unfold perpX normalizedDirZ
      norm_num
      rw [show ((100 : ℝ)) = 10 ^ 2 by norm_num,
        Real.sqrt_sq (by norm_num : (0 : ℝ) ≤ 10)]
      norm_num
    rw [hperp]
    push_cast
    ring
  · norm_num

/-- C8: for a span with equal attachment heights
(`baseA + hA = baseB + hB`), the sampled curve is symmetric about its
midpoint — the `y`-coordinate of sample `i` equals that of sample
`samples - i`. -/
theorem C8_symmetric (o : CurveOptions) (hn : 0 < o.samples)
    (hh : o.poleA.base + o.poleA.h = o.poleB.base + o.poleB.h)
    (i : ℕ) (hi : i ≤ o.samples) :
    ((getConductorCurve o)[i]?).map RPoint.y
      = ((getConductorCurve o)[o.samples - i]?).map RPoint.y := by
  rw [getConductorCurve_getElem? o i hi,
    getConductorCurve_getElem? o (o.samples - i) (Nat.sub_le _ _)]
  rw [Option.map_some', Option.map_some']
  congr 1
  rw [conductorPoint_y, conductorPoint_y,
    cosh_dip_arg_symm o.samples i hn hi, hh]
  ring

/-- Witness for C8: the span from `(0,0)` to `(30,0)` with attachment
heights `0 + 10` and `2 + 8`, two samples, at `i = 0`. -/
theorem C8_witness :
    (0 < (⟨⟨0, 0, 0, 10⟩, ⟨30, 0, 2, 8⟩, 1, 2, 0, 0⟩ :
        CurveOptions).samples
      ∧ ((0 : ℝ) + 10 = 2 + 8) ∧ (0 : ℕ) ≤ 2)
    ∧ ((getConductorCurve ⟨⟨0, 0, 0, 10⟩, ⟨30, 0, 2, 8⟩, 1, 2, 0, 0⟩)[0]?).map
          RPoint.y
        = ((getConductorCurve
            ⟨⟨0, 0, 0, 10⟩, ⟨30, 0, 2, 8⟩, 1, 2, 0, 0⟩)[2 - 0]?).map
            RPoint.y :=
  ⟨⟨by norm_num, by norm_num, by norm_num⟩,
   C8_symmetric ⟨⟨0, 0, 0, 10⟩, ⟨30, 0, 2, 8⟩, 1, 2, 0, 0⟩ (by norm_num)
     (by norm_num) 0 (by norm_num)⟩

/-! ## Pole-elevation ground function (src/js/main.js, `customGround`)

`customGround` interpolates a sloped surface through the user-supplied
pole elevations.  The pole records carry `{x, z, h, elev}`; only `z`
and `elev` are read by `customGround`, so only those fields are
modelled. -/

/-- One entry of `customPoles`, restricted to the fields `customGround`
reads. -/
structure CPole where
  z : ℚ
  elev : ℚ
  deriving DecidableEq, Repr

/-- The interpolation loop of `customGround`
(`for (let i = 1; i < customPoles.length; i++)`), with `prev` playing
the role of `customPoles[i - 1]`; the trailing `0` is the source's
`return 0` fallback after the loop. -/
def customGroundLoop (localZ : ℚ) : CPole → List CPole → ℚ
  | _, [] => 0
  | prev, p :: rest =>
    if localZ ≤ p.z then
      let t := (localZ - prev.z) / (p.z - prev.z)
      prev.elev * (1 - t) + p.elev * t
    else customGroundLoop localZ p rest

/-- `customGround(x, z)` from src/js/main.js lines 113-127.  The `x`
argument is unused by the source as well.  The `[]` case is unreachable
in the source (`customGround` is only installed when
`customPoles.length > 0`). -/
def customGround (customPoles : List CPole) (terrainOffsetZ : ℚ)
    (_x z : ℚ) : ℚ :=
  match customPoles with
  | [] => 0
  | first :: rest =>
    let localZ := z - terrainOffsetZ
    let last := (first :: rest).getLast (List.cons_ne_nil first rest)
    if localZ ≤ first.z then first.elev
    else if last.z ≤ localZ then last.elev
    else customGroundLoop localZ first rest

/-! ## Profile terrain surface (src/unnamed/part_006, `getElevationAt`)

The interpolation function returned by `createTerrainFromProfile`. -/

/-- One entry of `terrainPoints` as built by `createTerrainFromProfile`:
`{x: sceneX, z: sceneZ, y: sceneY, originalElevation, distance, index}`. -/
structure TerrainPoint where
  x : ℚ
  z : ℚ
  y : ℚ
  originalElevation : ℚ
  distance : ℚ
  index : ℕ
  deriving DecidableEq, Repr

/-- The bracket-search loop of `getElevationAt`
(`for (let i = 0; i < terrainPoints.length - 1; i++) ... break`):
the first consecutive pair `(p1, p2)` with `p1.x ≤ x ≤ p2.x`, if any. -/
def findBracket (x : ℚ) : List TerrainPoint →
    Option (TerrainPoint × TerrainPoint)
  | p1 :: p2 :: rest =>
    if p1.x ≤ x ∧ x ≤ p2.x then some (p1, p2)
    else findBracket x (p2 :: rest)
  | _ => none

/-- `getElevationAt(x, z)` from src/unnamed/part_006 lines 198-241:
defaults `leftPoint = terrainPoints[0]`,
`rightPoint = terrainPoints[terrainPoints.length - 1]`, replaced by the
first bracketing pair when one exists; then linear interpolation along
x.  The final z-falloff `if` of the source returns `elevation` in both
branches and is kept verbatim.  The `[]` case is unreachable
(`createTerrainFromProfile` requires at least 2 points). -/
def getElevationAt (terrainPoints : List TerrainPoint) (sceneDepth : ℚ)
    (x z : ℚ) : ℚ :=
  match terrainPoints with
  | [] => 0
  | first :: rest =>
    let lr := match findBracket x (first :: rest) with
      | some lr => lr
      | none => (first, (first :: rest).getLast (List.cons_ne_nil first rest))
    let leftPoint := lr.1
    let rightPoint := lr.2
    let elevation :=
      if leftPoint.x = rightPoint.x then leftPoint.y
      else
        let t := (x - leftPoint.x) / (rightPoint.x - leftPoint.x)
        leftPoint.y + (rightPoint.y - leftPoint.y) * t
    let maxZDistance := sceneDepth / 2
    let zDistance := |z|
    if zDistance > maxZDistance then elevation else elevation

/-! Generic facts about lists that are strictly increasing under a
projection `f` (used for knot lists sorted by `z` or by `x`). -/

theorem chain'_head_lt_getElem {α : Type} (f : α → ℚ) (a : α) (l : List α)
    (hchain : List.Chain' (fun u v => f u < f v) (a :: l)) :
    ∀ (k : ℕ) (p : α), l[k]? = some p → f a < f p := by
  induction l generalizing a with
  | nil => intro k p hp; simp at hp
  | cons b rest ih =>
    intro k p hp
    have hab : f a < f b := List.chain'_cons.mp hchain |>.1
    cases k with
    | zero => simp at hp; rw [← hp]; exact hab
    | succ j =>
      have := ih b (List.chain'_cons.mp hchain).2 j p (by simpa using hp)
      exact hab.trans this

theorem chain'_le_getLast {α : Type} (f : α → ℚ) :
    ∀ (l : List α) (h : l ≠ []),
      List.Chain' (fun u v => f u < f v) l →
      ∀ p ∈ l, f p ≤ f (l.getLast h) := by
  intro l
  induction l with
  | nil => intro h; exact absurd rfl h
  | cons a rest ih =>
    intro h hchain p hp
    cases rest with
    | nil => simp at hp; rw [hp]; simp [List.getLast]
    | cons b rest' =>
      rw [List.getLast_cons (List.cons_ne_nil b rest')]
      rcases List.mem_cons.mp hp with hpa | hpr
      · have hab : f a < f b := List.chain'_cons.mp hchain |>.1
        have := ih (List.cons_ne_nil b rest') (List.chain'_cons.mp hchain).2
          b (List.mem_cons_self b rest')
        rw [hpa]
        exact le_trans hab.le this
      · exact ih (List.cons_ne_nil b rest') (List.chain'_cons.mp hchain).2
          p hpr

/-! Behaviour of `customGround`'s interpolation loop at a knot. -/

theorem customGroundLoop_knot (localZ : ℚ) (prev : CPole) (l : List CPole)
    (hchain : List.Chain' (fun u v => u.z < v.z) (prev :: l))
    (hprev : prev.z < localZ) :
    ∀ (k : ℕ) (p : CPole), l[k]? = some p → localZ = p.z →
      customGroundLoop localZ prev l = p.elev := by
  induction l generalizing prev with
  | nil => intro k p hp; simp at hp
  | cons q rest ih =>
    intro k p hp hz
    cases k with
    | zero =>
      simp only [List.getElem?_cons_zero, Option.some.injEq] at hp
      have hzq : localZ = q.z := by rw [hz, ← hp]
      have hpq : prev.z < q.z := hzq ▸ hprev
      have hne : q.z - prev.z ≠ 0 := sub_ne_zero.mpr hpq.ne'
      unfold customGroundLoop
      rw [if_pos (le_of_eq hzq)]
      show prev.elev * (1 - (localZ - prev.z) / (q.z - prev.z))
          + q.elev * ((localZ - prev.z) / (q.z - prev.z)) = p.elev
      rw [hzq, div_self hne, ← hp]
      ring
    | succ j =>
      have hqp : q.z < p.z :=
        chain'_head_lt_getElem CPole.z q rest
          (List.chain'_cons.mp hchain).2 j p (by simpa using hp)
      have hql : q.z < localZ := hz ▸ hqp
      unfold customGroundLoop
      rw [if_neg (not_le.mpr hql)]
      exact ih q (List.chain'_cons.mp hchain).2 hql j p (by simpa using hp) hz

/-! Behaviour of `findBracket`. -/

theorem findBracket_consecutive (tps : List TerrainPoint)
    (hchain : List.Chain' (fun u v => u.x < v.x) tps) :
    ∀ (k : ℕ) (p p' : TerrainPoint), tps[k]? = some p →
      tps[k + 1]? = some p' → findBracket p'.x tps = some (p, p') := by
  induction tps with
  | nil => intro k p p' hp; simp at hp
  | cons p1 rest ih =>
    intro k p p' hp hp'
    cases rest with
    | nil => cases k <;> simp at hp'
    | cons p2 rest' =>
      have h12 : p1.x < p2.x := List.chain'_cons.mp hchain |>.1
      cases k with
      | zero =>
        simp only [List.getElem?_cons_zero, Option.some.injEq] at hp
        simp only [List.getElem?_cons_succ, List.getElem?_cons_zero,
          Option.some.injEq] at hp'
        subst hp; subst hp'
        unfold findBracket
        rw [if_pos ⟨h12.le, le_rfl⟩]
      | succ j =>
        have hp2p' : p2.x < p'.x := by
          have hj' : rest'[j]? = some p' := by simpa using hp'
          exact chain'_head_lt_getElem TerrainPoint.x p2 rest'
            (List.chain'_cons.mp hchain).2 j p' hj'
        unfold findBracket
        rw [if_neg (by intro hc; exact absurd hc.2 (not_le.mpr hp2p'))]
        exact ih (List.chain'_cons.mp hchain).2 j p p' (by simpa using hp)
          (by simpa using hp')

theorem findBracket_none_below (q : ℚ) :
    ∀ (tps : List TerrainPoint), (∀ p ∈ tps, q < p.x) →
      findBracket q tps = none := by
  intro tps
  induction tps with
  | nil => intro _; rfl
  | cons p1 rest ih =>
    intro hall
    cases rest with
    | nil => rfl
    | cons p2 rest' =>
      unfold findBracket
      rw [if_neg (by
        intro hc
        exact absurd hc.1 (not_le.mpr (hall p1 (List.mem_cons_self _ _))))]
      exact ih fun p hp => hall p (List.mem_cons_of_mem _ hp)

theorem findBracket_none_above (q : ℚ) :
    ∀ (tps : List TerrainPoint), (∀ p ∈ tps, p.x < q) →
      findBracket q tps = none := by
  intro tps
  induction tps with
  | nil => intro _; rfl
  | cons p1 rest ih =>
    intro hall
    cases rest with
    | nil => rfl
    | cons p2 rest' =>
      unfold findBracket
      rw [if_neg (by
        intro hc
        exact absurd hc.2
          (not_le.mpr (hall p2 (List.mem_cons_of_mem _
            (List.mem_cons_self _ _)))))]
      exact ih fun p hp => hall p (List.mem_cons_of_mem _ hp)

/-! Behaviour of `customGround`. -/

instance : IsTrans CPole (fun u v => u.z < v.z) := ⟨fun _ _ _ => lt_trans⟩

instance : IsTrans TerrainPoint (fun u v => u.x < v.x) :=
  ⟨fun _ _ _ => lt_trans⟩

theorem customGround_clamp_below (first : CPole) (rest : List CPole)
    (tOff qx qz : ℚ) (h : qz - tOff ≤ first.z) :
    customGround (first :: rest) tOff qx qz = first.elev := by
  simp only [customGround]
  rw [if_pos h]

theorem customGround_clamp_above (first : CPole) (rest : List CPole)
    (hchain : List.Chain' (fun u v => u.z < v.z) (first :: rest))
    (tOff qx qz : ℚ)
    (h : ((first :: rest).getLast (List.cons_ne_nil first rest)).z
        ≤ qz - tOff) :
    customGround (first :: rest) tOff qx qz
      = ((first :: rest).getLast (List.cons_ne_nil first rest)).elev := by
  cases rest with
  | nil =>
    simp only [customGround, List.getLast_singleton] at h ⊢
    by_cases h1 : qz - tOff ≤ first.z
    · rw [if_pos h1]
    · rw [if_neg h1, if_pos h]
  | cons b rest' =>
    have hlast : (first :: b :: rest').getLast (List.cons_ne_nil _ _)
        = (b :: rest').getLast (List.cons_ne_nil b rest') :=
      List.getLast_cons (List.cons_ne_nil b rest')
    have hfb : first.z < b.z := List.chain'_cons.mp hchain |>.1
    have hbl : b.z ≤ ((b :: rest').getLast (List.cons_ne_nil b rest')).z :=
      chain'_le_getLast CPole.z (b :: rest') (List.cons_ne_nil b rest')
        (List.chain'_cons.mp hchain).2 b (List.mem_cons_self b rest')
    have hfl : first.z
        < ((first :: b :: rest').getLast (List.cons_ne_nil _ _)).z := by
      rw [hlast]; exact lt_of_lt_of_le hfb hbl
    simp only [customGround]
    rw [if_neg (not_le.mpr (lt_of_lt_of_le hfl h)), if_pos h]

theorem customGround_knot (first : CPole) (rest : List CPole)
    (hchain : List.Chain' (fun u v => u.z < v.z) (first :: rest))
    (tOff qx qz : ℚ) (k : ℕ) (p : CPole)
    (hk : (first :: rest)[k]? = some p) (hq : qz - tOff = p.z) :
    customGround (first :: rest) tOff qx qz = p.elev := by
  have hklen : k < (first :: rest).length := by
    by_contra hc
    rw [List.getElem?_eq_none (le_of_not_lt hc)] at hk
    exact Option.noConfusion hk
  have hmem : p ∈ first :: rest := by
    have := List.getElem?_eq_some.mp hk
    obtain ⟨hlt, hget⟩ := this
    exact hget ▸ List.getElem_mem hlt
  by_cases hlastc :
      ((first :: rest).getLast (List.cons_ne_nil first rest)).z ≤ qz - tOff
  · have hres := customGround_clamp_above first rest hchain tOff qx qz hlastc
    have hple : p.z
        ≤ ((first :: rest).getLast (List.cons_ne_nil first rest)).z :=
      chain'_le_getLast CPole.z (first :: rest)
        (List.cons_ne_nil first rest) hchain p hmem
    have hpz : p.z
        = ((first :: rest).getLast (List.cons_ne_nil first rest)).z :=
      le_antisymm hple (hq ▸ hlastc)
    -- with strictly increasing knots, `p` must itself be the last knot
    have hpw := List.chain'_iff_pairwise.mp hchain
    have hlen1 : (first :: rest).length - 1 < (first :: rest).length := by
      simp
    have hlastget : (first :: rest).getLast (List.cons_ne_nil first rest)
        = (first :: rest)[(first :: rest).length - 1] :=
      List.getLast_eq_getElem _ _
    have hkeq : k = (first :: rest).length - 1 := by
      by_contra hne
      have hklt : k < (first :: rest).length - 1 := by omega
      have := List.pairwise_iff_getElem.mp hpw k ((first :: rest).length - 1)
        hklen hlen1 hklt
      rw [← hlastget] at this
      have hpk : (first :: rest)[k] = p := by
        have := List.getElem?_eq_some.mp hk
        obtain ⟨_, hget⟩ := this
        exact hget
      rw [hpk] at this
      exact absurd hpz (ne_of_lt this)
    have hpeq : p = (first :: rest).getLast (List.cons_ne_nil first rest) := by
      rw [hkeq] at hk
      rw [List.getElem?_eq_getElem hlen1] at hk
      rw [hlastget]
      exact (Option.some.injEq _ _ ▸ hk).symm
    rw [hres, ← hpeq]
  · cases k with
    | zero =>
      simp only [List.getElem?_cons_zero, Option.some.injEq] at hk
      rw [customGround_clamp_below first rest tOff qx qz
        (by rw [hq, hk]), hk]
    | succ j =>
      have hj : rest[j]? = some p := by simpa using hk
      have hfp : first.z < p.z :=
        chain'_head_lt_getElem CPole.z first rest hchain j p hj
      simp only [customGround]
      rw [if_neg (not_le.mpr (by rw [hq]; exact hfp)), if_neg hlastc]
      exact customGroundLoop_knot (qz - tOff) first rest hchain
        (hq ▸ hfp) j p hj hq

/-! Behaviour of `getElevationAt`. -/

theorem getElevationAt_knot (first : TerrainPoint) (rest : List TerrainPoint)
    (hchain : List.Chain' (fun u v => u.x < v.x) (first :: rest))
    (depth qz : ℚ) (k : ℕ) (p : TerrainPoint)
    (hk : (first :: rest)[k]? = some p) :
    getElevationAt (first :: rest) depth p.x qz = p.y := by
  cases rest with
  | nil =>
    cases k with
    | zero =>
      simp only [List.getElem?_cons_zero, Option.some.injEq] at hk
      have hnone : findBracket p.x [first] = none := rfl
      simp only [getElevationAt, hnone, List.getLast_singleton]
      simp [hk]
    | succ j => simp at hk
  | cons b rest' =>
    cases k with
    | zero =>
      simp only [List.getElem?_cons_zero, Option.some.injEq] at hk
      have hfb : first.x < b.x := List.chain'_cons.mp hchain |>.1
      have hbr : findBracket p.x (first :: b :: rest') = some (first, b) := by
        unfold findBracket
        rw [if_pos ⟨le_of_eq (by rw [hk]), by rw [← hk]; exact hfb.le⟩]
      simp only [getElevationAt, hbr]
      rw [if_neg (ne_of_lt hfb), ite_self, ← hk]
      simp
    | succ j =>
      have hjlen : j < (first :: b :: rest').length := by
        obtain ⟨hlen, _⟩ := List.getElem?_eq_some.mp hk
        omega
      have hjlen1 : j + 1 < (first :: b :: rest').length := by
        obtain ⟨hlen, _⟩ := List.getElem?_eq_some.mp hk
        omega
      have hprev : (first :: b :: rest')[j]?
          = some ((first :: b :: rest').get ⟨j, hjlen⟩) := by
        rw [List.getElem?_eq_getElem hjlen]
        rfl
      have hbr := findBracket_consecutive (first :: b :: rest') hchain j
        ((first :: b :: rest').get ⟨j, hjlen⟩) p hprev hk
      have hlt : ((first :: b :: rest').get ⟨j, hjlen⟩).x < p.x := by
        have hpw := List.chain'_iff_pairwise.mp hchain
        have hrel := List.pairwise_iff_getElem.mp hpw j (j + 1) hjlen hjlen1
          (Nat.lt_succ_self j)
        have hpk : (first :: b :: rest').get ⟨j + 1, hjlen1⟩ = p := by
          obtain ⟨_, hget⟩ := List.getElem?_eq_some.mp hk
          rw [List.get_eq_getElem]
          exact hget
        rw [List.get_eq_getElem] at hpk
        rw [hpk] at hrel
        rw [List.get_eq_getElem]
        exact hrel
      simp only [getElevationAt, hbr]
      rw [if_neg (ne_of_lt hlt), ite_self,
        div_self (sub_ne_zero.mpr hlt.ne')]
      ring

theorem getElevationAt_outside (first b : TerrainPoint)
    (rest : List TerrainPoint)
    (hchain : List.Chain' (fun u v => u.x < v.x) (first :: b :: rest))
    (depth q qz : ℚ)
    (hout : q < first.x
      ∨ ((first :: b :: rest).getLast (List.cons_ne_nil first (b :: rest))).x
          < q) :
    getElevationAt (first :: b :: rest) depth q qz
      = first.y
        + (((first :: b :: rest).getLast
              (List.cons_ne_nil first (b :: rest))).y - first.y)
          * ((q - first.x)
             / (((first :: b :: rest).getLast
                  (List.cons_ne_nil first (b :: rest))).x - first.x)) := by
  have hbmem : ∀ p ∈ b :: rest, first.x < p.x :=
    (List.pairwise_cons.mp (List.chain'_iff_pairwise.mp hchain)).1
  have hlastmem : ((first :: b :: rest).getLast
      (List.cons_ne_nil first (b :: rest))) ∈ b :: rest := by
    rw [List.getLast_cons (List.cons_ne_nil b rest)]
    exact List.getLast_mem (List.cons_ne_nil b rest)
  have hfl : first.x < ((first :: b :: rest).getLast
      (List.cons_ne_nil first (b :: rest))).x := hbmem _ hlastmem
  have hnone : findBracket q (first :: b :: rest) = none := by
    rcases hout with hbelow | habove
    · refine findBracket_none_below q _ fun p hp => ?_
      rcases List.mem_cons.mp hp with hpf | hpr
      · rw [hpf]; exact hbelow
      · exact hbelow.trans (hbmem p hpr)
    · refine findBracket_none_above q _ fun p hp => ?_
      have hple : p.x ≤ ((first :: b :: rest).getLast
          (List.cons_ne_nil first (b :: rest))).x :=
        chain'_le_getLast TerrainPoint.x (first :: b :: rest)
          (List.cons_ne_nil first (b :: rest)) hchain p hp
      exact lt_of_le_of_lt hple habove
  simp only [getElevationAt, hnone]
  rw [if_neg (ne_of_lt hfl), ite_self]

/-- C3 (amended): for piecewise-linear surfaces built from strictly
increasing knots, `customGround` clamps out-of-range queries to the
nearest endpoint elevation and is exact at every knot; the
`elevationFunction` built by `createTerrainFromProfile`
(`getElevationAt`) is exact at every knot, but a query outside the knot
range returns the linear extrapolation along the chord through the
*first and last* knots — not the nearest endpoint's elevation. -/
theorem C3_piecewise_linear_lookup :
    (∀ (first : CPole) (rest : List CPole) (tOff qx qz : ℚ),
      List.Chain' (fun u v => u.z < v.z) (first :: rest) →
      ((qz - tOff ≤ first.z →
          customGround (first :: rest) tOff qx qz = first.elev)
       ∧ (((first :: rest).getLast (List.cons_ne_nil first rest)).z
            ≤ qz - tOff →
          customGround (first :: rest) tOff qx qz
            = ((first :: rest).getLast (List.cons_ne_nil first rest)).elev)
       ∧ (∀ (k : ℕ) (p : CPole), (first :: rest)[k]? = some p →
            qz - tOff = p.z →
            customGround (first :: rest) tOff qx qz = p.elev)))
    ∧ (∀ (first : TerrainPoint) (rest : List TerrainPoint) (depth qz : ℚ)
        (k : ℕ) (p : TerrainPoint),
        List.Chain' (fun u v => u.x < v.x) (first :: rest) →
        (first :: rest)[k]? = some p →
        getElevationAt (first :: rest) depth p.x qz = p.y)
    ∧ (∀ (first b : TerrainPoint) (rest : List TerrainPoint)
        (depth q qz : ℚ),
        List.Chain' (fun u v => u.x < v.x) (first :: b :: rest) →
        (q < first.x
          ∨ ((first :: b :: rest).getLast
              (List.cons_ne_nil first (b :: rest))).x < q) →
        getElevationAt (first :: b :: rest) depth q qz
          = first.y
            + (((first :: b :: rest).getLast
                  (List.cons_ne_nil first (b :: rest))).y - first.y)
              * ((q - first.x)
                 / (((first :: b :: rest).getLast
                      (List.cons_ne_nil first (b :: rest))).x - first.x))) := by
  refine ⟨fun first rest tOff qx qz hchain =>
      ⟨customGround_clamp_below first rest tOff qx qz,
       customGround_clamp_above first rest hchain tOff qx qz,
       fun k p hk hq => customGround_knot first rest hchain tOff qx qz k p hk hq⟩,
    fun first rest depth qz k p hchain hk =>
      getElevationAt_knot first rest hchain depth qz k p hk,
    fun first b rest depth q qz hchain hout =>
      getElevationAt_outside first b rest hchain depth q qz hout⟩

/-- Witness for C3 at concrete inputs: the two-knot pole surface
`[(z = 0, elev = 5), (z = 10, elev = 7)]` queried below the range at
`z = -3`, and the two-knot terrain `[(x = 0, y = 0), (x = 10, y = 10)]`
queried at the knot `x = 0` and outside the range at `x = -10`. -/
theorem C3_witness :
    (List.Chain' (fun u v => u.z < v.z)
        [(⟨0, 5⟩ : CPole), ⟨10, 7⟩]
      ∧ ((-3 : ℚ) - 0 ≤ (0 : ℚ))
      ∧ List.Chain' (fun u v => u.x < v.x)
        [(⟨0, 0, 0, 0, 0, 0⟩ : TerrainPoint), ⟨10, 0, 10, 10, 10, 1⟩]
      ∧ ([(⟨0, 0, 0, 0, 0, 0⟩ : TerrainPoint), ⟨10, 0, 10, 10, 10, 1⟩][0]?
          = some ⟨0, 0, 0, 0, 0, 0⟩)
      ∧ ((-10 : ℚ) < (0 : ℚ) ∨
          (([(⟨0, 0, 0, 0, 0, 0⟩ : TerrainPoint),
              ⟨10, 0, 10, 10, 10, 1⟩].getLast (by simp)).x < (-10 : ℚ))))
    ∧ customGround [(⟨0, 5⟩ : CPole), ⟨10, 7⟩] 0 0 (-3) = 5
    ∧ getElevationAt [(⟨0, 0, 0, 0, 0, 0⟩ : TerrainPoint),
        ⟨10, 0, 10, 10, 10, 1⟩] 100
        (⟨0, 0, 0, 0, 0, 0⟩ : TerrainPoint).x 0
        = (⟨0, 0, 0, 0, 0, 0⟩ : TerrainPoint).y
    ∧ getElevationAt [(⟨0, 0, 0, 0, 0, 0⟩ : TerrainPoint),
        ⟨10, 0, 10, 10, 10, 1⟩] 100 (-10) 0
        = (0 : ℚ)
          + ((([(⟨0, 0, 0, 0, 0, 0⟩ : TerrainPoint),
              ⟨10, 0, 10, 10, 10, 1⟩].getLast
                (List.cons_ne_nil _ _)).y - 0)
            * (((-10 : ℚ) - 0)
               / (([(⟨0, 0, 0, 0, 0, 0⟩ : TerrainPoint),
                    ⟨10, 0, 10, 10, 10, 1⟩].getLast
                      (List.cons_ne_nil _ _)).x - 0))) := by
  have hcp : List.Chain' (fun u v => u.z < v.z)
      [(⟨0, 5⟩ : CPole), ⟨10, 7⟩] := by
    simp [List.chain'_cons]
  have htp : List.Chain' (fun u v => u.x < v.x)
      [(⟨0, 0, 0, 0, 0, 0⟩ : TerrainPoint), ⟨10, 0, 10, 10, 10, 1⟩] := by
    simp [List.chain'_cons]
  refine ⟨⟨hcp, by norm_num, htp, rfl, Or.inl (by norm_num)⟩, ?_, ?_, ?_⟩
  · exact (C3_piecewise_linear_lookup.1 ⟨0, 5⟩ [⟨10, 7⟩] 0 0 (-3) hcp).1
      (by norm_num)
  · exact C3_piecewise_linear_lookup.2.1 ⟨0, 0, 0, 0, 0, 0⟩
      [⟨10, 0, 10, 10, 10, 1⟩] 100 0 0 ⟨0, 0, 0, 0, 0, 0⟩ htp rfl
  · exact C3_piecewise_linear_lookup.2.2 ⟨0, 0, 0, 0, 0, 0⟩
      ⟨10, 0, 10, 10, 10, 1⟩ [] 100 (-10) 0 htp (Or.inl (by norm_num))

/-- Counterexample to C3 as stated: for the two-knot terrain
`[(x = 0, y = 0), (x = 10, y = 10)]`, the profile `elevationFunction`
at the out-of-range query `x = -10` returns `-10` (chord
extrapolation), not the nearest endpoint's elevation `0`. -/
theorem C3_counterexample :
    getElevationAt [(⟨0, 0, 0, 0, 0, 0⟩ : TerrainPoint),
        ⟨10, 0, 10, 10, 10, 1⟩] 100 (-10) 0 = -10
    ∧ ((-10 : ℚ) ≠ (⟨0, 0, 0, 0, 0, 0⟩ : TerrainPoint).y) := by
  constructor
  · have hnone : findBracket (-10)
        [(⟨0, 0, 0, 0, 0, 0⟩ : TerrainPoint), ⟨10, 0, 10, 10, 10, 1⟩]
          = none := by
      unfold findBracket
      norm_num
      rfl
    simp only [getElevationAt, hnone]
    norm_num [List.getLast]
  · norm_num


/-! ## JavaScript string primitives

Used by the CSV parsers (`parseGISData`, `parseElevationProfile`).
JavaScript strings are modelled as `List Char` (`String` appears only
at the outermost API boundary, converted by `String.data`).
`parseFloat` is modelled over `ℚ`: a successful parse yields the exact
rational value of the literal; IEEE-754 rounding and the non-finite
results (`Infinity` from overflow or a literal `Infinity`) are
idealised away, and `none` stands for `NaN`. -/

/-- `String.prototype.trim()`. -/
def trimChars (cs : List Char) : List Char :=
  ((cs.dropWhile Char.isWhitespace).reverse.dropWhile
    Char.isWhitespace).reverse

/-- `String.prototype.toLowerCase()` (ASCII, as used by the headers). -/
def lowerChars (cs : List Char) : List Char := cs.map Char.toLower

/-- Splitting on a separator character; `[] ↦ [[]]` like JavaScript's
`''.split(sep) = ['']`. -/
def splitOnChar (sep : Char) : List Char → List (List Char)
  | [] => [[]]
  | c :: rest =>
    match splitOnChar sep rest with
    | [] => [[]]
    | cur :: others =>
      if c == sep then [] :: cur :: others else (c :: cur) :: others

/-- Whether `sub` is a prefix of the character list. -/
def listHasPrefix : List Char → List Char → Bool
  | _, [] => true
  | [], _ :: _ => false
  | a :: as, b :: bs => a == b && listHasPrefix as bs

/-- `String.prototype.includes(sub)`: `sub` occurs as a contiguous
substring. -/
def containsSub (sub : List Char) : List Char → Bool
  | [] => listHasPrefix [] sub
  | c :: rest => listHasPrefix (c :: rest) sub || containsSub sub rest

/-- The numeric value of a digit string. -/
def digitsToNat (ds : List Char) : ℕ :=
  ds.foldl (fun n c => 10 * n + (c.toNat - 48)) 0

/-- `parseFloat(s)`: skip leading whitespace, optional sign, decimal
mantissa (digits, optional point, digits — at least one digit
required), optional exponent (ignored when its digits are missing);
trailing garbage is ignored; `none` models `NaN`. -/
def jsParseFloat (s : List Char) : Option ℚ :=
  let cs := s.dropWhile Char.isWhitespace
  let signRest : Bool × List Char :=
    match cs with
    | '-' :: rest => (true, rest)
    | '+' :: rest => (false, rest)
    | _ => (false, cs)
  let neg := signRest.1
  let cs1 := signRest.2
  let intDigits := cs1.takeWhile Char.isDigit
  let rest1 := cs1.dropWhile Char.isDigit
  let fracRest : List Char × List Char :=
    match rest1 with
    | '.' :: r => (r.takeWhile Char.isDigit, r.dropWhile Char.isDigit)
    | _ => ([], rest1)
  let fracDigits := fracRest.1
  let rest2 := fracRest.2
  if intDigits.isEmpty && fracDigits.isEmpty then none
  else
    let mantissa : ℚ := (digitsToNat intDigits : ℚ)
      + (digitsToNat fracDigits : ℚ) / ((10 : ℚ) ^ fracDigits.length)
    let expVal : ℤ :=
      match rest2 with
      | 'e' :: r | 'E' :: r =>
        let esignRest : Bool × List Char :=
          match r with
          | '-' :: rr => (true, rr)
          | '+' :: rr => (false, rr)
          | _ => (false, r)
        let eDigits := esignRest.2.takeWhile Char.isDigit
        if eDigits.isEmpty then 0
        else if esignRest.1 then -(digitsToNat eDigits : ℤ)
        else (digitsToNat eDigits : ℤ)
      | _ => 0
    let v := mantissa * (10 : ℚ) ^ expVal
    some (if neg then -v else v)

/-- The final value of a JS `forEach` loop that assigns `index` to a
variable initialised to `-1` whenever `pred` holds — i.e. the *last*
matching index, `-1` when none matches. -/
def lastIdxWhere (pred : List Char → Bool) (headers : List (List Char)) :
    ℤ :=
  headers.enum.foldl
    (fun acc ih => if pred ih.2 then (ih.1 : ℤ) else acc) (-1)

/-- `values[i]` for a possibly-negative index: `none` models
JavaScript's `undefined` (negative or out-of-range index). -/
def atIdx (values : List (List Char)) (i : ℤ) : Option (List Char) :=
  if i < 0 then none else values[i.toNat]?

/-- `parseFloat(values[i])`; `parseFloat(undefined)` is `NaN`. -/
def parseFloatAt (values : List (List Char)) (i : ℤ) : Option ℚ :=
  match atIdx values i with
  | none => none
  | some s => jsParseFloat s

/-! ## GIS CSV parser (src/unnamed/part_005, `parseGISData`) -/

/-- One record of the `poles` array produced by `parseGISData`. -/
structure GISPole where
  id : List Char
  lat : ℚ
  lng : ℚ
  elevation : ℚ
  height : ℚ
  originalIndex : ℕ
  deriving DecidableEq, Repr

/-- `csvContent.trim().split('\n')`. -/
def gisLines (csvContent : String) : List (List Char) :=
  splitOnChar '\n' (trimChars csvContent.data)

/-- Header detection: the lowercased first line contains one of the
common header substrings. -/
def gisHasHeaders (csvContent : String) : Bool :=
  let firstLine := lowerChars ((gisLines csvContent).headD [])
  containsSub ['l', 'a', 't'] firstLine ||
  containsSub ['l', 'n', 'g'] firstLine ||
  containsSub ['e', 'l', 'e', 'v', 'a', 't', 'i', 'o', 'n'] firstLine ||
  containsSub ['h', 'e', 'i', 'g', 'h', 't'] firstLine ||
  containsSub ['l', 'o', 'n', 'g', 'i', 't', 'u', 'd', 'e'] firstLine ||
  containsSub ['p', 'o', 'l', 'e'] firstLine

/-- `headers = lines[0].split(',').map(h => h.trim().toLowerCase())`
(only consulted when `gisHasHeaders`). -/
def gisHeaders (csvContent : String) : List (List Char) :=
  (splitOnChar ',' ((gisLines csvContent).headD [])).map
    (fun h => lowerChars (trimChars h))

/-- `latIndex`: last header containing `"lat"`, else fixed column 0. -/
def gisLatIndex (csvContent : String) : ℤ :=
  if gisHasHeaders csvContent then
    lastIdxWhere (fun h => containsSub ['l', 'a', 't'] h)
      (gisHeaders csvContent)
  else 0

/-- `lngIndex`: last header containing `"lng"` or `"lon"`, else 1. -/
def gisLngIndex (csvContent : String) : ℤ :=
  if gisHasHeaders csvContent then
    lastIdxWhere
      (fun h => containsSub ['l', 'n', 'g'] h || containsSub ['l', 'o', 'n'] h)
      (gisHeaders csvContent)
  else 1

/-- `elevIndex`: last header containing `"elev"` or `"altitude"`,
else 2. -/
def gisElevIndex (csvContent : String) : ℤ :=
  if gisHasHeaders csvContent then
    lastIdxWhere
      (fun h => containsSub ['e', 'l', 'e', 'v'] h ||
        containsSub ['a', 'l', 't', 'i', 't', 'u', 'd', 'e'] h)
      (gisHeaders csvContent)
  else 2

/-- `heightIndex`: last header containing `"height"` or
`"pole_height"`, else 3. -/
def gisHeightIndex (csvContent : String) : ℤ :=
  if gisHasHeaders csvContent then
    lastIdxWhere
      (fun h => containsSub ['h', 'e', 'i', 'g', 'h', 't'] h ||
        containsSub
          ['p', 'o', 'l', 'e', '_', 'h', 'e', 'i', 'g', 'h', 't'] h)
      (gisHeaders csvContent)
  else 3

/-- `idIndex`: last header containing `"id"`, `"name"` or `"pole"`,
else `-1` (the no-header branch leaves it at its initial `-1`). -/
def gisIdIndex (csvContent : String) : ℤ :=
  if gisHasHeaders csvContent then
    lastIdxWhere
      (fun h => containsSub ['i', 'd'] h ||
        containsSub ['n', 'a', 'm', 'e'] h ||
        containsSub ['p', 'o', 'l', 'e'] h)
      (gisHeaders csvContent)
  else -1

/-- `dataStart = hasHeaders ? 1 : 0`. -/
def gisDataStart (csvContent : String) : ℕ :=
  if gisHasHeaders csvContent then 1 else 0

/-- `values[idIndex].replace(/['"]/g, '')`. -/
def stripQuotes (s : List Char) : List Char :=
  s.filter (fun c => c ≠ '\x27' ∧ c ≠ '"')

/-- `elevation`: `0` unless `elevIndex` addresses a cell that parses to
a number. -/
def gisRowElevation (elevIndex : ℤ) (values : List (List Char)) : ℚ :=
  if elevIndex ≥ 0 ∧ elevIndex < (values.length : ℤ) then
    (parseFloatAt values elevIndex).getD 0
  else 0

/-- `height`: default `10`, replaced by the parsed cell value only when
it parses and is strictly positive. -/
def gisRowHeight (heightIndex : ℤ) (values : List (List Char)) : ℚ :=
  if heightIndex ≥ 0 ∧ heightIndex < (values.length : ℤ) then
    match parseFloatAt values heightIndex with
    | some h => if h > 0 then h else 10
    | none => 10
  else 10

/-- `id`: the quote-stripped cell when `idIndex` addresses a nonempty
cell, else `Pole_<poles.length + 1>`. -/
def gisRowId (idIndex : ℤ) (values : List (List Char)) (polesSoFar : ℕ) :
    List Char :=
  if idIndex ≥ 0 ∧ idIndex < (values.length : ℤ)
      ∧ ((atIdx values idIndex).getD []).isEmpty = false then
    stripQuotes ((atIdx values idIndex).getD [])
  else ('P' :: 'o' :: 'l' :: 'e' :: '_' :: (Nat.repr (polesSoFar + 1)).data)

/-- The body of `parseGISData`'s row loop for line number `i` (an index
into `lines`): `none` models `continue`, `some` models `poles.push`.
`polesSoFar` is `poles.length`, used only for the default id. -/
def parseGISRow (latIndex lngIndex elevIndex heightIndex idIndex : ℤ)
    (i : ℕ) (rawLine : List Char) (polesSoFar : ℕ) : Option GISPole :=
  let line := trimChars rawLine
  if line.isEmpty then none
  else
    let values := (splitOnChar ',' line).map trimChars
    if values.length < 3 ∨ latIndex = -1 ∨ lngIndex = -1 then none
    else
      match parseFloatAt values latIndex, parseFloatAt values lngIndex with
      | some lat, some lng =>
        if lat < -90 ∨ lat > 90 ∨ lng < -180 ∨ lng > 180 then none
        else
          some ⟨gisRowId idIndex values polesSoFar, lat, lng,
            gisRowElevation elevIndex values,
            gisRowHeight heightIndex values, i⟩
      | _, _ => none

/-- The result object of `parseGISData` (the `headers` echo of the raw
header cells is included for completeness). -/
structure GISData where
  poles : List GISPole
  headers : Option (List (List Char))
  totalRows : ℕ
  validPoles : ℕ
  deriving DecidableEq, Repr

/-- The row-loop fold of `parseGISData`. -/
def gisFoldRows (latIndex lngIndex elevIndex heightIndex idIndex : ℤ)
    (dataStart : ℕ) (dataLines : List (ℕ × List Char))
    (acc : List GISPole) : List GISPole :=
  dataLines.foldl
    (fun acc il =>
      match parseGISRow latIndex lngIndex elevIndex heightIndex idIndex
          (il.1 + dataStart) il.2 acc.length with
      | some p => acc ++ [p]
      | none => acc) acc

/-- `parseGISData(csvContent)` from src/unnamed/part_005 lines 76-174;
`Except.error` models `throw new Error(...)`. -/
def parseGISData (csvContent : String) : Except (List Char) GISData :=
  let lines := gisLines csvContent
  let dataStart := gisDataStart csvContent
  let poles := gisFoldRows (gisLatIndex csvContent) (gisLngIndex csvContent)
    (gisElevIndex csvContent) (gisHeightIndex csvContent)
    (gisIdIndex csvContent) dataStart ((lines.drop dataStart).enum) []
  if poles.length = 0 then
    Except.error
      "No valid pole data found in CSV. Please check the format.".data
  else
    Except.ok ⟨poles,
      if gisHasHeaders csvContent then
        some ((splitOnChar ',' (lines.headD [])).map trimChars)
      else none,
      lines.length - dataStart, poles.length⟩

/-! ## Elevation profile parser (src/unnamed/part_006,
`parseElevationProfile`) -/

/-- One parsed profile point: `{x, y, distance, elevation, index}`,
with `x`/`y` equal to `null` (`none`) when the profile has no
coordinate columns. -/
structure ProfPoint where
  x : Option ℚ
  y : Option ℚ
  distance : ℚ
  elevation : ℚ
  index : ℕ
  deriving DecidableEq, Repr

/-- `csvContent.trim().split('\n')`. -/
def profLines (csvContent : String) : List (List Char) :=
  splitOnChar '\n' (trimChars csvContent.data)

/-- `headers = lines[0].split(',').map(h => h.trim())` (stored
untouched; matching lowercases each header). -/
def profHeaders (csvContent : String) : List (List Char) :=
  (splitOnChar ',' ((profLines csvContent).headD [])).map trimChars

/-- `xIndex`: last header whose lowercase form contains `"x"` or equals
`"a"`. -/
def profXIndex (csvContent : String) : ℤ :=
  lastIdxWhere
    (fun h => containsSub ['x'] (lowerChars h) || lowerChars h == ['a'])
    (profHeaders csvContent)

/-- `yIndex`: last header whose lowercase form contains `"y"` or equals
`"b"`. -/
def profYIndex (csvContent : String) : ℤ :=
  lastIdxWhere
    (fun h => containsSub ['y'] (lowerChars h) || lowerChars h == ['b'])
    (profHeaders csvContent)

/-- `distIndex`: last header whose lowercase form contains `"distance"`
or `"dist"` or equals `"c"`. -/
def profDistIndex (csvContent : String) : ℤ :=
  lastIdxWhere
    (fun h =>
      containsSub ['d', 'i', 's', 't', 'a', 'n', 'c', 'e'] (lowerChars h) ||
      containsSub ['d', 'i', 's', 't'] (lowerChars h) ||
      lowerChars h == ['c'])
    (profHeaders csvContent)

/-- `elevIndex`: last header whose lowercase form contains
`"elevation"`, `"elev"` or `"ground"` or equals `"d"`. -/
def profElevIndex (csvContent : String) : ℤ :=
  lastIdxWhere
    (fun h =>
      containsSub ['e', 'l', 'e', 'v', 'a', 't', 'i', 'o', 'n']
        (lowerChars h) ||
      containsSub ['e', 'l', 'e', 'v'] (lowerChars h) ||
      containsSub ['g', 'r', 'o', 'u', 'n', 'd'] (lowerChars h) ||
      lowerChars h == ['d'])
    (profHeaders csvContent)

/-- The body of `parseElevationProfile`'s row loop for line number `i`
(1-based index into `lines`): `none` models `continue`, `some` models
`points.push`. -/
def parseProfRow (xIndex yIndex distIndex elevIndex : ℤ)
    (headerCount : ℕ) (i : ℕ) (rawLine : List Char) : Option ProfPoint :=
  let line := trimChars rawLine
  if line.isEmpty then none
  else
    let values := (splitOnChar ',' line).map trimChars
    if values.length < headerCount then none
    else
      let xy? : Option (Option ℚ × Option ℚ) :=
        if xIndex ≥ 0 ∧ yIndex ≥ 0 then
          match parseFloatAt values xIndex, parseFloatAt values yIndex with
          | some xv, some yv => some (some xv, some yv)
          | _, _ => none
        else some (none, none)
      match xy? with
      | none => none
      | some xy =>
        let distance : ℚ :=
          if distIndex ≥ 0 then (parseFloatAt values distIndex).getD 0 else 0
        match parseFloatAt values elevIndex with
        | none => none
        | some elevation => some ⟨xy.1, xy.2, distance, elevation, i - 1⟩

/-- Stable insertion of `a` after all already-placed elements `b` with
`le b a` — the building block of a stable sort. -/
def insertStable {α : Type} (le : α → α → Bool) (a : α) :
    List α → List α
  | [] => [a]
  | b :: bs => if le b a then b :: insertStable le a bs else a :: b :: bs

/-- A stable sort (insertion sort), modelling the ECMAScript
`Array.prototype.sort` contract for the comparator
`(a, b) => a.distance - b.distance`: the result is ordered by the
comparator and elements with equal keys keep their relative order. -/
def stableSort {α : Type} (le : α → α → Bool) (l : List α) : List α :=
  l.foldl (fun sorted a => insertStable le a sorted) []

/-- The summary statistics object of `parseElevationProfile`. -/
structure ProfStats where
  pointCount : ℕ
  elevMin : ℚ
  elevMax : ℚ
  elevSpan : ℚ
  distMin : ℚ
  distMax : ℚ
  distSpan : ℚ
  averageElevation : ℚ
  deriving DecidableEq, Repr

/-- `Math.min(...l)` for a nonempty list (`0` is a placeholder for the
unreachable empty case, where JavaScript yields `Infinity`). -/
def jsMinList (l : List ℚ) : ℚ :=
  match l with
  | [] => 0
  | c :: cs => cs.foldl min c

/-- `Math.max(...l)`, dually. -/
def jsMaxList (l : List ℚ) : ℚ :=
  match l with
  | [] => 0
  | c :: cs => cs.foldl max c

/-- The result object of `parseElevationProfile`. -/
structure ProfileData where
  points : List ProfPoint
  headers : List (List Char)
  stats : ProfStats
  hasCoordinates : Bool
  hasDistance : Bool
  deriving DecidableEq, Repr

/-- `parseElevationProfile(csvContent)` from src/unnamed/part_006 lines
13-120; `Except.error` models `throw new Error(...)`. -/
def parseElevationProfile (csvContent : String) :
    Except (List Char) ProfileData :=
  let lines := profLines csvContent
  if lines.length < 2 then
    Except.error "Elevation profile must contain header and data rows".data
  else
    let headers := profHeaders csvContent
    let xIndex := profXIndex csvContent
    let yIndex := profYIndex csvContent
    let distIndex := profDistIndex csvContent
    let elevIndex := profElevIndex csvContent
    if elevIndex = -1 then
      Except.error "No elevation column found".data
    else
      let points := (lines.drop 1).enum.filterMap
        (fun il => parseProfRow xIndex yIndex distIndex elevIndex
          headers.length (il.1 + 1) il.2)
      if points.length = 0 then
        Except.error "No valid elevation data found".data
      else
        let sorted := if distIndex ≥ 0 then
            stableSort (fun a b => a.distance ≤ b.distance) points
          else points
        let elevations := sorted.map (fun p => p.elevation)
        let distances := sorted.map (fun p => p.distance)
        Except.ok ⟨sorted, headers,
          ⟨sorted.length,
           jsMinList elevations, jsMaxList elevations,
           jsMaxList elevations - jsMinList elevations,
           jsMinList distances, jsMaxList distances,
           jsMaxList distances - jsMinList distances,
           (elevations.foldl (· + ·) 0) / (elevations.length : ℚ)⟩,
          decide (xIndex ≥ 0 ∧ yIndex ≥ 0), decide (distIndex ≥ 0)⟩

/-! ## Terrain construction (src/unnamed/part_006,
`createTerrainFromProfile`)

The embedding keeps the outputs the geometry engine consumes:
`elevationFunction` (represented by its captured data — the
`terrainPoints` list and `sceneDepth` — and applied via
`getElevationAt`), `profilePoints` and the scaling metadata.  The
visualization-only outputs (`meshPoints`, `bounds`) are rendering
concerns and are omitted.  Of the source's options, `surfaceResolution`
and `profileDirection` are likewise only used for the mesh. -/

/-- The result of `createTerrainFromProfile`. -/
structure TerrainData where
  profilePoints : List TerrainPoint
  sceneDepth : ℚ
  scaleFactorX : ℚ
  heightScale : ℚ
  sceneWidth : ℚ
  profileLength : ℚ
  pointCount : ℕ
  deriving DecidableEq, Repr

/-- `createTerrainFromProfile(profileData, options)` from
src/unnamed/part_006 lines 128-276 (defaults: `sceneWidth = 200`,
`sceneDepth = 100`, `heightScale = 1.0`, `centerProfile = true`).
`Except.error` models `throw new Error(...)`.  Its
`elevationFunction` closure is `getElevationAt profilePoints sceneDepth`. -/
def createTerrainFromProfile (pd : ProfileData)
    (sceneWidth sceneDepth heightScale : ℚ) (centerProfile : Bool) :
    Except (List Char) TerrainData :=
  if pd.points.length < 2 then
    Except.error "Need at least 2 elevation points to create terrain".data
  else
    let profileLength0 := pd.stats.distSpan
    let profileLength : ℚ :=
      if profileLength0 = 0 then ((pd.points.length - 1 : ℕ) : ℚ)
      else profileLength0
    let scaleX : ℚ := if profileLength > 0 then sceneWidth / profileLength
      else 1
    let terrainPoints := pd.points.enum.map (fun ip =>
      let point := ip.2
      let sceneX0 : ℚ :=
        if pd.hasDistance then (point.distance - pd.stats.distMin) * scaleX
        else (ip.1 : ℚ) * (sceneWidth / ((pd.points.length - 1 : ℕ) : ℚ))
      let sceneX := if centerProfile then sceneX0 - sceneWidth / 2
        else sceneX0
      let sceneZ : ℚ := 0
      let sceneY := (point.elevation - pd.stats.elevMin) * heightScale
      (⟨sceneX, sceneZ, sceneY, point.elevation,
        if point.distance = 0 then (ip.1 : ℚ) else point.distance,
        ip.1⟩ : TerrainPoint))
    Except.ok ⟨terrainPoints, sceneDepth, scaleX, heightScale, sceneWidth,
      profileLength, pd.points.length⟩

/-! ## Error behaviour of the two parsers -/

/-- Whether an `Except` result is an error (a thrown exception). -/
def exceptErr {ε α : Type} : Except ε α → Bool
  | .error _ => true
  | .ok _ => false

/-- Whether a row is accepted does not depend on how many poles were
already accepted (`polesSoFar` only feeds the default id). -/
theorem parseGISRow_isSome_congr (li lni ei hi ii : ℤ) (i : ℕ)
    (line : List Char) (k1 k2 : ℕ) :
    (parseGISRow li lni ei hi ii i line k1).isSome
      = (parseGISRow li lni ei hi ii i line k2).isSome := by
  simp only [parseGISRow]
  split_ifs
  · rfl
  · rfl
  · cases hla : parseFloatAt (List.map trimChars (splitOnChar ',' (trimChars line))) li with
    | none => rfl
    | some lat =>
      cases hlg : parseFloatAt (List.map trimChars (splitOnChar ',' (trimChars line))) lni with
      | none => rfl
      | some lng =>
        by_cases hr : lat < -90 ∨ 90 < lat ∨ lng < -180 ∨ 180 < lng
        · simp [hr]
        · simp [hr]

/-- The pole list built by `parseGISData`'s loop is empty iff the
accumulator was empty and every row is rejected. -/
theorem gisFoldRows_eq_nil_iff (li lni ei hi ii : ℤ) (ds : ℕ) :
    ∀ (l : List (ℕ × List Char)) (acc : List GISPole),
      gisFoldRows li lni ei hi ii ds l acc = []
        ↔ acc = [] ∧ ∀ il ∈ l,
            parseGISRow li lni ei hi ii (il.1 + ds) il.2 0 = none := by
  intro l
  induction l with
  | nil => intro acc; simp [gisFoldRows]
  | cons il rest ih =>
    intro acc
    have hstep : gisFoldRows li lni ei hi ii ds (il :: rest) acc
        = gisFoldRows li lni ei hi ii ds rest
          (match parseGISRow li lni ei hi ii (il.1 + ds) il.2 acc.length with
           | some p => acc ++ [p]
           | none => acc) := rfl
    rw [hstep]
    cases hrow : parseGISRow li lni ei hi ii (il.1 + ds) il.2 acc.length with
    | some p =>
      have h0 : parseGISRow li lni ei hi ii (il.1 + ds) il.2 0 ≠ none := by
        have hc := parseGISRow_isSome_congr li lni ei hi ii (il.1 + ds)
          il.2 acc.length 0
        rw [hrow] at hc
        simp only [Option.isSome_some] at hc
        exact Option.isSome_iff_ne_none.mp hc.symm
      rw [ih (acc ++ [p])]
      simp [h0]
    | none =>
      have h0 : parseGISRow li lni ei hi ii (il.1 + ds) il.2 0 = none := by
        have hc := parseGISRow_isSome_congr li lni ei hi ii (il.1 + ds)
          il.2 acc.length 0
        rw [hrow] at hc
        simp only [Option.isSome_none] at hc
        exact Option.not_isSome_iff_eq_none.mp
          (by rw [← hc]; exact Bool.false_ne_true)
      rw [ih acc]
      simp [h0]

/-- C9: each parser throws exactly when the input is structurally
invalid or no valid data row remains: `parseGISData` errs iff every
data row is rejected (an empty input has no accepted row), and
`parseElevationProfile` errs iff the input has fewer than two lines,
or no recognizable elevation column, or every data row is rejected;
individually malformed rows are merely skipped and never cause failure
when an accepted row exists. -/
theorem C9_parser_error_iff (csv : String) :
    (exceptErr (parseGISData csv) = true
      ↔ ∀ il ∈ ((gisLines csv).drop (gisDataStart csv)).enum,
          parseGISRow (gisLatIndex csv) (gisLngIndex csv)
            (gisElevIndex csv) (gisHeightIndex csv) (gisIdIndex csv)
            (il.1 + gisDataStart csv) il.2 0 = none)
    ∧ (exceptErr (parseElevationProfile csv) = true
      ↔ ((profLines csv).length < 2 ∨ profElevIndex csv = -1
          ∨ ∀ il ∈ ((profLines csv).drop 1).enum,
              parseProfRow (profXIndex csv) (profYIndex csv)
                (profDistIndex csv) (profElevIndex csv)
                (profHeaders csv).length (il.1 + 1) il.2 = none)) := by
  constructor
  · have hfold := gisFoldRows_eq_nil_iff (gisLatIndex csv) (gisLngIndex csv)
      (gisElevIndex csv) (gisHeightIndex csv) (gisIdIndex csv)
      (gisDataStart csv) (((gisLines csv).drop (gisDataStart csv)).enum) []
    by_cases h : (gisFoldRows (gisLatIndex csv) (gisLngIndex csv)
        (gisElevIndex csv) (gisHeightIndex csv) (gisIdIndex csv)
        (gisDataStart csv)
        (((gisLines csv).drop (gisDataStart csv)).enum) []).length = 0
    · have herr : exceptErr (parseGISData csv) = true := by
        simp only [parseGISData]
        rw [if_pos h]
        rfl
      rw [herr]
      simp only [true_iff]
      exact (hfold.mp (List.length_eq_zero.mp h)).2
    · have hok : exceptErr (parseGISData csv) = false := by
        simp only [parseGISData]
        rw [if_neg h]
        rfl
      rw [hok]
      simp only [Bool.false_eq_true, false_iff]
      intro hall
      exact h (by
        rw [List.length_eq_zero]
        exact hfold.mpr ⟨rfl, hall⟩)
  · by_cases h1 : (profLines csv).length < 2
    · have herr : exceptErr (parseElevationProfile csv) = true := by
        simp only [parseElevationProfile]
        rw [if_pos h1]
        rfl
      rw [herr]
      simp only [true_iff]
      exact Or.inl h1
    · by_cases h2 : profElevIndex csv = -1
      · have herr : exceptErr (parseElevationProfile csv) = true := by
          simp only [parseElevationProfile]
          rw [if_neg h1, if_pos h2]
          rfl
        rw [herr]
        simp only [true_iff]
        exact Or.inr (Or.inl h2)
      · by_cases h3 : (((profLines csv).drop 1).enum.filterMap
            (fun il => parseProfRow (profXIndex csv) (profYIndex csv)
              (profDistIndex csv) (profElevIndex csv)
              (profHeaders csv).length (il.1 + 1) il.2)).length = 0
        · have herr : exceptErr (parseElevationProfile csv) = true := by
            simp only [parseElevationProfile]
            rw [if_neg h1, if_neg h2, if_pos h3]
            rfl
          rw [herr]
          simp only [true_iff]
          exact Or.inr (Or.inr
            (List.filterMap_eq_nil_iff.mp (List.length_eq_zero.mp h3)))
        · have hok : exceptErr (parseElevationProfile csv) = false := by
            simp only [parseElevationProfile]
            rw [if_neg h1, if_neg h2, if_neg h3]
            rfl
          rw [hok]
          simp only [Bool.false_eq_true, false_iff]
          rintro (ha | hb | hall)
          · exact h1 ha
          · exact h2 hb
          · exact h3 (by
              rw [List.length_eq_zero]
              exact List.filterMap_eq_nil_iff.mpr hall)

/-! ## Field invariants of `parseGISData` records -/

theorem gisRowHeight_pos (hi : ℤ) (values : List (List Char)) :
    0 < gisRowHeight hi values := by
  unfold gisRowHeight
  by_cases hc : hi ≥ 0 ∧ hi < (values.length : ℤ)
  · rw [if_pos hc]
    cases hp : parseFloatAt values hi with
    | none => norm_num
    | some h =>
      show (0 : ℚ) < if h > 0 then h else 10
      by_cases hh : h > 0
      · rw [if_pos hh]; exact hh
      · rw [if_neg hh]; norm_num
  · rw [if_neg hc]; norm_num

theorem parseGISRow_some_bounds (li lni ei hi ii : ℤ) (i : ℕ)
    (line : List Char) (k : ℕ) (p : GISPole)
    (hp : parseGISRow li lni ei hi ii i line k = some p) :
    -90 ≤ p.lat ∧ p.lat ≤ 90 ∧ -180 ≤ p.lng ∧ p.lng ≤ 180
      ∧ 0 < p.height := by
  simp only [parseGISRow] at hp
  split_ifs at hp
  split at hp
  all_goals try exact Option.noConfusion hp
  rename_i lat lng hla hlg
  split_ifs at hp with hr
  push_neg at hr
  obtain ⟨hr1, hr2, hr3, hr4⟩ := hr
  have hpe : p = ⟨gisRowId ii ((splitOnChar ',' (trimChars line)).map
      trimChars) k, lat, lng,
      gisRowElevation ei ((splitOnChar ',' (trimChars line)).map trimChars),
      gisRowHeight hi ((splitOnChar ',' (trimChars line)).map trimChars),
      i⟩ := by
    injection hp with hinj
    exact hinj.symm
  rw [hpe]
  exact ⟨hr1, hr2, hr3, hr4, gisRowHeight_pos hi _⟩

theorem mem_gisFoldRows (li lni ei hi ii : ℤ) (ds : ℕ) :
    ∀ (l : List (ℕ × List Char)) (acc : List GISPole) (p : GISPole),
      p ∈ gisFoldRows li lni ei hi ii ds l acc →
      p ∈ acc ∨ ∃ il ∈ l, ∃ k,
        parseGISRow li lni ei hi ii (il.1 + ds) il.2 k = some p := by
  intro l
  induction l with
  | nil => intro acc p hp; exact Or.inl hp
  | cons il rest ih =>
    intro acc p hp
    have hstep : gisFoldRows li lni ei hi ii ds (il :: rest) acc
        = gisFoldRows li lni ei hi ii ds rest
          (match parseGISRow li lni ei hi ii (il.1 + ds) il.2 acc.length with
           | some q => acc ++ [q]
           | none => acc) := rfl
    rw [hstep] at hp
    cases hrow : parseGISRow li lni ei hi ii (il.1 + ds) il.2 acc.length with
    | some q =>
      rw [hrow] at hp
      rcases ih (acc ++ [q]) p hp with hin | ⟨il', hil', k, hk⟩
      · rcases List.mem_append.mp hin with hmem | hmem
        · exact Or.inl hmem
        · have hpq : p = q := by simpa using hmem
          exact Or.inr ⟨il, List.mem_cons_self _ _, acc.length,
            hpq ▸ hrow⟩
      · exact Or.inr ⟨il', List.mem_cons_of_mem _ hil', k, hk⟩
    | none =>
      rw [hrow] at hp
      rcases ih acc p hp with hin | ⟨il', hil', k, hk⟩
      · exact Or.inl hin
      · exact Or.inr ⟨il', List.mem_cons_of_mem _ hil', k, hk⟩

/-- C10: every record produced by `parseGISData` has latitude in
[-90, 90], longitude in [-180, 180] (out-of-range or non-numeric rows
are skipped) and a strictly positive height; the height field defaults
to `10` exactly when the cell is absent (index `-1` or out of range),
non-numeric, or non-positive, and otherwise equals the parsed value. -/
theorem C10_gis_record_invariants :
    (∀ (csv : String) (r : GISData), parseGISData csv = Except.ok r →
      ∀ p ∈ r.poles, -90 ≤ p.lat ∧ p.lat ≤ 90 ∧ -180 ≤ p.lng
        ∧ p.lng ≤ 180 ∧ 0 < p.height)
    ∧ (∀ (hi : ℤ) (values : List (List Char)),
        0 < gisRowHeight hi values
        ∧ ((hi < 0 ∨ (values.length : ℤ) ≤ hi
            ∨ parseFloatAt values hi = none
            ∨ (∃ h, parseFloatAt values hi = some h ∧ h ≤ 0)) →
            gisRowHeight hi values = 10)
        ∧ (∀ h, 0 ≤ hi → hi < (values.length : ℤ) →
            parseFloatAt values hi = some h → 0 < h →
            gisRowHeight hi values = h)) := by
  constructor
  · intro csv r hok p hp
    have hpoles : p ∈ gisFoldRows (gisLatIndex csv) (gisLngIndex csv)
        (gisElevIndex csv) (gisHeightIndex csv) (gisIdIndex csv)
        (gisDataStart csv)
        (((gisLines csv).drop (gisDataStart csv)).enum) [] := by
      simp only [parseGISData] at hok
      split_ifs at hok
      all_goals first
        | (injection hok with hr; rw [← hr] at hp; exact hp)
        | injection hok
    rcases mem_gisFoldRows (gisLatIndex csv) (gisLngIndex csv)
        (gisElevIndex csv) (gisHeightIndex csv) (gisIdIndex csv)
        (gisDataStart csv) _ [] p hpoles with hin | ⟨il, _, k, hk⟩
    · exact absurd hin (List.not_mem_nil p)
    · exact parseGISRow_some_bounds _ _ _ _ _ _ _ _ _ hk
  · intro hi values
    refine ⟨gisRowHeight_pos hi values, ?_, ?_⟩
    · intro hcase
      unfold gisRowHeight
      rcases hcase with hneg | hout | hnan | ⟨h, hsome, hle⟩
      · rw [if_neg (by omega)]
      · rw [if_neg (by omega)]
      · by_cases hc : hi ≥ 0 ∧ hi < (values.length : ℤ)
        · rw [if_pos hc, hnan]
        · rw [if_neg hc]
      · by_cases hc : hi ≥ 0 ∧ hi < (values.length : ℤ)
        · rw [if_pos hc, hsome]
          show (if h > 0 then h else 10) = 10
          rw [if_neg (not_lt.mpr hle)]
        · rw [if_neg hc]
    · intro h h0 hlen hsome hpos
      unfold gisRowHeight
      rw [if_pos ⟨h0, hlen⟩, hsome]
      show (if h > 0 then h else 10) = h
      rw [if_pos hpos]

/-! ## Round trip: profile parsing and terrain sampling -/

/-- C6 (amended): for every CSV accepted by `parseElevationProfile`,
provided the (sorted) profile distances are strictly increasing when
distance data exists, building terrain with `createTerrainFromProfile`
and evaluating its `elevationFunction` at each profile point's rescaled
x-position returns exactly that point's rescaled elevation
`(elevation - profile minimum) * heightScale`. -/
theorem C6_roundtrip (csv : String) (pd : ProfileData)
    (_hparse : parseElevationProfile csv = Except.ok pd)
    (sceneWidth sceneDepth heightScale : ℚ) (centerProfile : Bool)
    (hw : 0 < sceneWidth)
    (hstrict : pd.hasDistance = true →
      List.Chain' (fun u v => u.distance < v.distance) pd.points)
    (td : TerrainData)
    (hterr : createTerrainFromProfile pd sceneWidth sceneDepth heightScale
      centerProfile = Except.ok td)
    (k : ℕ) (p : ProfPoint) (hk : pd.points[k]? = some p) (qz : ℚ) :
    ∃ tp, td.profilePoints[k]? = some tp
      ∧ tp.y = (p.elevation - pd.stats.elevMin) * heightScale
      ∧ getElevationAt td.profilePoints td.sceneDepth tp.x qz = tp.y := by
  have hlen : ¬(pd.points.length < 2) := by
    intro hc
    simp only [createTerrainFromProfile] at hterr
    rw [if_pos hc] at hterr
    exact Except.noConfusion hterr
  simp only [createTerrainFromProfile] at hterr
  rw [if_neg hlen] at hterr
  injection hterr with htd
  -- the scale factor is strictly positive
  have hscale : 0 < (if (if pd.stats.distSpan = 0
      then ((pd.points.length - 1 : ℕ) : ℚ) else pd.stats.distSpan) > 0
      then sceneWidth / (if pd.stats.distSpan = 0
        then ((pd.points.length - 1 : ℕ) : ℚ) else pd.stats.distSpan)
      else 1) := by
    by_cases hgt : (if pd.stats.distSpan = 0
        then ((pd.points.length - 1 : ℕ) : ℚ) else pd.stats.distSpan) > 0
    · rw [if_pos hgt]; exact div_pos hw hgt
    · rw [if_neg hgt]; norm_num
  have hidxstep : 0 < sceneWidth / ((pd.points.length - 1 : ℕ) : ℚ) := by
    have h1 : (1 : ℚ) ≤ ((pd.points.length - 1 : ℕ) : ℚ) := by
      have : 1 ≤ pd.points.length - 1 := by omega
      exact_mod_cast this
    exact div_pos hw (lt_of_lt_of_le one_pos h1)
  -- the x-coordinates of the terrain points strictly increase
  have hchain : List.Chain' (fun u v => u.x < v.x) td.profilePoints := by
    rw [← htd]
    rw [List.chain'_iff_get]
    intro i hi
    simp only [List.length_map, List.enum_length] at hi
    rw [List.get_eq_getElem, List.get_eq_getElem]
    rw [List.getElem_map, List.getElem_map, List.getElem_enum,
      List.getElem_enum]
    simp only
    by_cases hcp : centerProfile
    all_goals
      by_cases hd : pd.hasDistance
    all_goals
      simp only [hcp, hd, if_pos, if_neg, if_true, if_false]
    · -- centered, with distances
      have hdd := (List.chain'_iff_get.mp (hstrict hd)) i (by omega)
      rw [List.get_eq_getElem, List.get_eq_getElem] at hdd
      have := mul_lt_mul_of_pos_right (sub_lt_sub_right hdd
        pd.stats.distMin) hscale
      exact sub_lt_sub_right this _
    · -- centered, no distances
      have := mul_lt_mul_of_pos_right
        (by exact_mod_cast Nat.lt_succ_self i :
          ((i : ℚ) < ((i + 1 : ℕ) : ℚ))) hidxstep
      exact sub_lt_sub_right this _
    · -- not centered, with distances
      have hdd := (List.chain'_iff_get.mp (hstrict hd)) i (by omega)
      rw [List.get_eq_getElem, List.get_eq_getElem] at hdd
      exact mul_lt_mul_of_pos_right (sub_lt_sub_right hdd
        pd.stats.distMin) hscale
    · -- not centered, no distances
      exact mul_lt_mul_of_pos_right
        (by exact_mod_cast Nat.lt_succ_self i :
          ((i : ℚ) < ((i + 1 : ℕ) : ℚ))) hidxstep
  -- the terrain point at index k
  have hgetk : td.profilePoints[k]?
      = (pd.points[k]?).map (fun q =>
          (⟨(if centerProfile then
              (if pd.hasDistance then
                  (q.distance - pd.stats.distMin) *
                    (if (if pd.stats.distSpan = 0
                        then ((pd.points.length - 1 : ℕ) : ℚ)
                        else pd.stats.distSpan) > 0
                     then sceneWidth / (if pd.stats.distSpan = 0
                        then ((pd.points.length - 1 : ℕ) : ℚ)
                        else pd.stats.distSpan)
                     else 1)
                else (k : ℚ) *
                  (sceneWidth / ((pd.points.length - 1 : ℕ) : ℚ)))
                - sceneWidth / 2
             else
              (if pd.hasDistance then
                  (q.distance - pd.stats.distMin) *
                    (if (if pd.stats.distSpan = 0
                        then ((pd.points.length - 1 : ℕ) : ℚ)
                        else pd.stats.distSpan) > 0
                     then sceneWidth / (if pd.stats.distSpan = 0
                        then ((pd.points.length - 1 : ℕ) : ℚ)
                        else pd.stats.distSpan)
                     else 1)
                else (k : ℚ) *
                  (sceneWidth / ((pd.points.length - 1 : ℕ) : ℚ)))),
            0, (q.elevation - pd.stats.elevMin) * heightScale,
            q.elevation,
            if q.distance = 0 then (k : ℚ) else q.distance,
            k⟩ : TerrainPoint)) := by
    rw [← htd]
    simp only [List.getElem?_map, List.getElem?_enum, hk, Option.map_some']
  rw [hk, Option.map_some'] at hgetk
  refine ⟨_, hgetk, rfl, ?_⟩
  -- exactness at the knot
  have hlen2 : 0 < td.profilePoints.length := by
    rw [← htd]
    simp only [List.length_map, List.enum_length]
    omega
  cases htp : td.profilePoints with
  | nil => rw [htp] at hlen2; simp at hlen2
  | cons first rest =>
    rw [htp] at hchain hgetk
    exact getElevationAt_knot first rest hchain td.sceneDepth qz k _ hgetk

/-- Witness for C6: the profile `distance,elevation / 0,0 / 5,1` with
strictly increasing distances, built with the default options, sampled
at the first knot. -/
theorem C6_witness :
    parseElevationProfile "distance,elevation\n0,0\n5,1"
      = Except.ok ⟨[⟨none, none, 0, 0, 0⟩, ⟨none, none, 5, 1, 1⟩],
          [['d', 'i', 's', 't', 'a', 'n', 'c', 'e'],
           ['e', 'l', 'e', 'v', 'a', 't', 'i', 'o', 'n']],
          ⟨2, 0, 1, 1, 0, 5, 5, 1/2⟩, false, true⟩
    ∧ (0 : ℚ) < 200
    ∧ ((⟨[⟨none, none, 0, 0, 0⟩, ⟨none, none, 5, 1, 1⟩],
          [['d', 'i', 's', 't', 'a', 'n', 'c', 'e'],
           ['e', 'l', 'e', 'v', 'a', 't', 'i', 'o', 'n']],
          ⟨2, 0, 1, 1, 0, 5, 5, 1/2⟩, false, true⟩ : ProfileData).hasDistance
          = true →
        List.Chain' (fun u v => u.distance < v.distance)
          [(⟨none, none, 0, 0, 0⟩ : ProfPoint), ⟨none, none, 5, 1, 1⟩])
    ∧ createTerrainFromProfile
        ⟨[⟨none, none, 0, 0, 0⟩, ⟨none, none, 5, 1, 1⟩],
          [['d', 'i', 's', 't', 'a', 'n', 'c', 'e'],
           ['e', 'l', 'e', 'v', 'a', 't', 'i', 'o', 'n']],
          ⟨2, 0, 1, 1, 0, 5, 5, 1/2⟩, false, true⟩ 200 100 1 true
      = Except.ok ⟨[⟨-100, 0, 0, 0, 0, 0⟩, ⟨100, 0, 1, 1, 5, 1⟩],
          100, 40, 1, 200, 5, 2⟩
    ∧ ([(⟨none, none, 0, 0, 0⟩ : ProfPoint),
        ⟨none, none, 5, 1, 1⟩][0]? = some ⟨none, none, 0, 0, 0⟩)
    ∧ ∃ tp, (⟨[⟨-100, 0, 0, 0, 0, 0⟩, ⟨100, 0, 1, 1, 5, 1⟩],
          100, 40, 1, 200, 5, 2⟩ : TerrainData).profilePoints[0]? = some tp
        ∧ tp.y = ((⟨none, none, 0, 0, 0⟩ : ProfPoint).elevation
            - (⟨2, 0, 1, 1, 0, 5, 5, 1/2⟩ : ProfStats).elevMin) * 1
        ∧ getElevationAt (⟨[⟨-100, 0, 0, 0, 0, 0⟩, ⟨100, 0, 1, 1, 5, 1⟩],
            100, 40, 1, 200, 5, 2⟩ : TerrainData).profilePoints
            (⟨[⟨-100, 0, 0, 0, 0, 0⟩, ⟨100, 0, 1, 1, 5, 1⟩],
              100, 40, 1, 200, 5, 2⟩ : TerrainData).sceneDepth tp.x 0
          = tp.y := by
  have hdata : ("distance,elevation\n0,0\n5,1" : String).data
      = ['d', 'i', 's', 't', 'a', 'n', 'c', 'e', ',', 'e', 'l', 'e', 'v',
         'a', 't', 'i', 'o', 'n', '\n', '0', ',', '0', '\n', '5', ',',
         '1'] := rfl
  have h1 : parseElevationProfile "distance,elevation\n0,0\n5,1"
      = Except.ok ⟨[⟨none, none, 0, 0, 0⟩, ⟨none, none, 5, 1, 1⟩],
          [['d', 'i', 's', 't', 'a', 'n', 'c', 'e'],
           ['e', 'l', 'e', 'v', 'a', 't', 'i', 'o', 'n']],
          ⟨2, 0, 1, 1, 0, 5, 5, 1/2⟩, false, true⟩ := by
    simp +decide [parseElevationProfile, profLines, profHeaders, profXIndex,
      profYIndex, profDistIndex, profElevIndex, parseProfRow, trimChars,
      lowerChars, splitOnChar, containsSub, listHasPrefix, lastIdxWhere,
      atIdx, parseFloatAt, jsParseFloat, digitsToNat, hdata, List.enum,
      List.enumFrom, List.dropWhile, List.takeWhile, stableSort,
      insertStable, jsMinList, jsMaxList]
  have h3 : (⟨[⟨none, none, 0, 0, 0⟩, ⟨none, none, 5, 1, 1⟩],
          [['d', 'i', 's', 't', 'a', 'n', 'c', 'e'],
           ['e', 'l', 'e', 'v', 'a', 't', 'i', 'o', 'n']],
          ⟨2, 0, 1, 1, 0, 5, 5, 1/2⟩, false, true⟩ : ProfileData).hasDistance
          = true →
        List.Chain' (fun u v => u.distance < v.distance)
          [(⟨none, none, 0, 0, 0⟩ : ProfPoint), ⟨none, none, 5, 1, 1⟩] :=
    fun _ => by
      simp [List.chain'_cons]
  have h4 : createTerrainFromProfile
        ⟨[⟨none, none, 0, 0, 0⟩, ⟨none, none, 5, 1, 1⟩],
          [['d', 'i', 's', 't', 'a', 'n', 'c', 'e'],
           ['e', 'l', 'e', 'v', 'a', 't', 'i', 'o', 'n']],
          ⟨2, 0, 1, 1, 0, 5, 5, 1/2⟩, false, true⟩ 200 100 1 true
      = Except.ok ⟨[⟨-100, 0, 0, 0, 0, 0⟩, ⟨100, 0, 1, 1, 5, 1⟩],
          100, 40, 1, 200, 5, 2⟩ := by
    simp +decide [createTerrainFromProfile, List.enum, List.enumFrom]
    norm_num
  exact ⟨h1, by norm_num, h3, h4, rfl,
    C6_roundtrip "distance,elevation\n0,0\n5,1" _ h1 200 100 1 true
      (by norm_num) h3 _ h4 0 _ rfl 0⟩

/-- Counterexample to C6 as stated: the accepted CSV
`distance,elevation / 0,0 / 5,1 / 5,2` has two profile points at the
same distance 5; both rescale to `x = 100`, and sampling the
`elevationFunction` there returns the first one's rescaled elevation
`1`, not the second one's `2` — the round trip is not exact for every
accepted CSV. -/
theorem C6_counterexample :
    parseElevationProfile "distance,elevation\n0,0\n5,1\n5,2"
      = Except.ok ⟨[⟨none, none, 0, 0, 0⟩, ⟨none, none, 5, 1, 1⟩,
          ⟨none, none, 5, 2, 2⟩],
          [['d', 'i', 's', 't', 'a', 'n', 'c', 'e'],
           ['e', 'l', 'e', 'v', 'a', 't', 'i', 'o', 'n']],
          ⟨3, 0, 2, 2, 0, 5, 5, 1⟩, false, true⟩
    ∧ createTerrainFromProfile
        ⟨[⟨none, none, 0, 0, 0⟩, ⟨none, none, 5, 1, 1⟩,
          ⟨none, none, 5, 2, 2⟩],
          [['d', 'i', 's', 't', 'a', 'n', 'c', 'e'],
           ['e', 'l', 'e', 'v', 'a', 't', 'i', 'o', 'n']],
          ⟨3, 0, 2, 2, 0, 5, 5, 1⟩, false, true⟩ 200 100 1 true
      = Except.ok ⟨[⟨-100, 0, 0, 0, 0, 0⟩, ⟨100, 0, 1, 1, 5, 1⟩,
          ⟨100, 0, 2, 2, 5, 2⟩], 100, 40, 1, 200, 5, 3⟩
    ∧ getElevationAt [⟨-100, 0, 0, 0, 0, 0⟩, ⟨100, 0, 1, 1, 5, 1⟩,
        ⟨100, 0, 2, 2, 5, 2⟩] 100
        (⟨100, 0, 2, 2, 5, 2⟩ : TerrainPoint).x 0 = 1
    ∧ (1 : ℚ) ≠ (⟨100, 0, 2, 2, 5, 2⟩ : TerrainPoint).y := by
  have hdata : ("distance,elevation\n0,0\n5,1\n5,2" : String).data
      = ['d', 'i', 's', 't', 'a', 'n', 'c', 'e', ',', 'e', 'l', 'e', 'v',
         'a', 't', 'i', 'o', 'n', '\n', '0', ',', '0', '\n', '5', ',',
         '1', '\n', '5', ',', '2'] := rfl
  refine ⟨?_, ?_, ?_, by norm_num⟩
  · simp +decide [parseElevationProfile, profLines, profHeaders, profXIndex,
      profYIndex, profDistIndex, profElevIndex, parseProfRow, trimChars,
      lowerChars, splitOnChar, containsSub, listHasPrefix, lastIdxWhere,
      atIdx, parseFloatAt, jsParseFloat, digitsToNat, hdata, List.enum,
      List.enumFrom, List.dropWhile, List.takeWhile, stableSort,
      insertStable, jsMinList, jsMaxList]
    norm_num
  · simp +decide [createTerrainFromProfile, List.enum, List.enumFrom]
    norm_num
  · have hbr : findBracket (⟨100, 0, 2, 2, 5, 2⟩ : TerrainPoint).x
        [⟨-100, 0, 0, 0, 0, 0⟩, ⟨100, 0, 1, 1, 5, 1⟩,
         ⟨100, 0, 2, 2, 5, 2⟩]
        = some (⟨-100, 0, 0, 0, 0, 0⟩, ⟨100, 0, 1, 1, 5, 1⟩) := by
      unfold findBracket
      norm_num
    simp only [getElevationAt, hbr]
    norm_num

/-- Witness for C10: the CSV `lat,lng,elevation / 10,20,5` parses to a
single record with in-range coordinates and the default height 10;
and the height rule applied to a parsed positive cell `7`. -/
theorem C10_witness :
    parseGISData "lat,lng,elevation\n10,20,5"
      = Except.ok ⟨[⟨['P', 'o', 'l', 'e', '_', '1'], 10, 20, 5, 10, 1⟩],
          some [['l', 'a', 't'], ['l', 'n', 'g'],
            ['e', 'l', 'e', 'v', 'a', 't', 'i', 'o', 'n']], 1, 1⟩
    ∧ ((⟨['P', 'o', 'l', 'e', '_', '1'], 10, 20, 5, 10, 1⟩ : GISPole)
        ∈ (⟨[⟨['P', 'o', 'l', 'e', '_', '1'], 10, 20, 5, 10, 1⟩],
            some [['l', 'a', 't'], ['l', 'n', 'g'],
              ['e', 'l', 'e', 'v', 'a', 't', 'i', 'o', 'n']], 1, 1⟩ :
            GISData).poles)
    ∧ (-90 ≤ (⟨['P', 'o', 'l', 'e', '_', '1'], 10, 20, 5, 10, 1⟩ :
          GISPole).lat
        ∧ (⟨['P', 'o', 'l', 'e', '_', '1'], 10, 20, 5, 10, 1⟩ :
            GISPole).lat ≤ 90
        ∧ -180 ≤ (⟨['P', 'o', 'l', 'e', '_', '1'], 10, 20, 5, 10, 1⟩ :
            GISPole).lng
        ∧ (⟨['P', 'o', 'l', 'e', '_', '1'], 10, 20, 5, 10, 1⟩ :
            GISPole).lng ≤ 180
        ∧ 0 < (⟨['P', 'o', 'l', 'e', '_', '1'], 10, 20, 5, 10, 1⟩ :
            GISPole).height)
    ∧ (0 ≤ (0 : ℤ) ∧ (0 : ℤ) < (([['7']] : List (List Char)).length : ℤ)
        ∧ parseFloatAt [['7']] 0 = some 7 ∧ (0 : ℚ) < 7
        ∧ gisRowHeight 0 [['7']] = 7) := by
  have hdata : ("lat,lng,elevation\n10,20,5" : String).data
      = ['l', 'a', 't', ',', 'l', 'n', 'g', ',', 'e', 'l', 'e', 'v', 'a',
         't', 'i', 'o', 'n', '\n', '1', '0', ',', '2', '0', ',', '5'] := rfl
  have hp : parseGISData "lat,lng,elevation\n10,20,5"
      = Except.ok ⟨[⟨['P', 'o', 'l', 'e', '_', '1'], 10, 20, 5, 10, 1⟩],
          some [['l', 'a', 't'], ['l', 'n', 'g'],
            ['e', 'l', 'e', 'v', 'a', 't', 'i', 'o', 'n']], 1, 1⟩ := by
    simp +decide [parseGISData, gisFoldRows, parseGISRow, gisLines,
      gisDataStart, gisHasHeaders, gisHeaders, gisLatIndex, gisLngIndex,
      gisElevIndex, gisHeightIndex, gisIdIndex, trimChars, lowerChars,
      splitOnChar, containsSub, listHasPrefix, lastIdxWhere, atIdx, hdata,
      parseFloatAt, jsParseFloat, digitsToNat, gisRowElevation,
      gisRowHeight, gisRowId, stripQuotes, List.enum, List.enumFrom,
      List.dropWhile, List.takeWhile, Nat.repr]
  have hsome : parseFloatAt [['7']] 0 = some 7 := by
    simp +decide [parseFloatAt, atIdx, jsParseFloat, digitsToNat]
  refine ⟨hp, by simp, ?_, ?_⟩
  · exact C10_gis_record_invariants.1 "lat,lng,elevation\n10,20,5" _ hp
      ⟨['P', 'o', 'l', 'e', '_', '1'], 10, 20, 5, 10, 1⟩ (by simp)
  · exact ⟨by norm_num, by norm_num, hsome, by norm_num,
      (C10_gis_record_invariants.2 0 [['7']]).2.2 7 (by norm_num)
        (by norm_num) hsome (by norm_num)⟩

end GridScaper
